import Mathlib

/-!
# Verification of the glTF scene-generator geometry pipeline

This file gives a shallow embedding, in Lean 4, of the geometry
import/merge/serialize pipeline of the repository:

* `src/utils/gltfBuilder.ts` — the scene serializer (`generateGltfParts`,
  `padBuffer`, `buildGlb`);
* `src/utils/glbParser.ts` — the binary-container importer (`parseGlb`);
* `src/utils/objParser.ts` — the mesh-text importer (`parseObj`) and
  `src/utils/mtlParser.ts` — the material-library parser (`parseMtl`);
* `src/utils/plyParser.ts` — the geographic converter
  (`parseGeoJsonToShapes`, `triangulate`, `getRandomPointInTriangle`).

Modelling conventions:

* JavaScript numbers are modelled by `ℚ` (the inputs exercised by the
  claims stay within exactly representable ranges); `Math.sqrt` is
  modelled by `ratSqrt` (exact on the perfect squares the statements
  inspect, and provably within `[0, 1]` on `[0, 1]`, which is all the
  scatter theorems use); `Math.sin`/`Math.cos`/`Math.PI` are parameters
  the statements do not constrain.
* Where a value can be JavaScript `NaN`/`undefined` and that matters for
  control flow (the mesh-text importer's `isNaN` checks), numbers are
  modelled by `Option ℚ` (`none` = NaN).
* Byte buffers are `List Nat`, each entry a byte value; 32-bit
  little-endian writes truncate modulo 2^32 exactly as `DataView.setUint32`
  does.
* `JSON.stringify`/`JSON.parse` and glTF accessor resolution against the
  binary chunk are treated as an abstraction boundary: functions that in
  the source consume a parsed JSON document take the structured document
  as an argument.
-/

/-! ## Byte-level helpers (gltfBuilder.ts / glbParser.ts) -/

/-- Little-endian 4-byte encoding of a 32-bit write, as performed by
`DataView.setUint32(offset, n, true)`: the value is truncated mod 2^32. -/
def u32LE (n : Nat) : List Nat :=
  [n % 256, n / 256 % 256, n / 65536 % 256, n / 16777216 % 256]

/-- Little-endian 32-bit read at `off`, as `DataView.getUint32(off, true)`
on an in-range offset (out-of-range bytes read as 0; the theorems only
apply it in range). -/
def readU32 (bs : List Nat) (off : Nat) : Nat :=
  bs.getD off 0 % 256 + 256 * (bs.getD (off+1) 0 % 256) +
    65536 * (bs.getD (off+2) 0 % 256) + 16777216 * (bs.getD (off+3) 0 % 256)

theorem u32LE_length (n : Nat) : (u32LE n).length = 4 := rfl

theorem readU32_u32LE_append (n : Nat) (rest : List Nat) :
    readU32 (u32LE n ++ rest) 0 = n % 4294967296 := by
  show (n % 256 :: n / 256 % 256 :: n / 65536 % 256 :: n / 16777216 % 256 :: rest).getD 0 0 % 256 +
      256 * ((n % 256 :: n / 256 % 256 :: n / 65536 % 256 :: n / 16777216 % 256 :: rest).getD 1 0 % 256) +
      65536 * ((n % 256 :: n / 256 % 256 :: n / 65536 % 256 :: n / 16777216 % 256 :: rest).getD 2 0 % 256) +
      16777216 * ((n % 256 :: n / 256 % 256 :: n / 65536 % 256 :: n / 16777216 % 256 :: rest).getD 3 0 % 256)
      = n % 4294967296
  simp only [List.getD_cons_zero, List.getD_cons_succ]
  omega

/-- `padBuffer` from gltfBuilder.ts: pad `buffer` to a multiple of
`alignment` with fill byte `padWith`; a buffer already aligned is returned
unchanged. -/
def padBuffer (buffer : List Nat) (alignment : Nat) (padWith : Nat) : List Nat :=
  let remainder := buffer.length % alignment
  if remainder = 0 then buffer
  else buffer ++ List.replicate (alignment - remainder) padWith

theorem padBuffer_length_mod (buffer : List Nat) (padWith : Nat) :
    (padBuffer buffer 4 padWith).length % 4 = 0 := by
  unfold padBuffer
  by_cases h : buffer.length % 4 = 0
  · simp only [h, reduceIte]
  · simp only [h, reduceIte, List.length_append, List.length_replicate]
    omega

theorem padBuffer_eq_append (buffer : List Nat) (padWith : Nat) :
    padBuffer buffer 4 padWith =
      buffer ++ List.replicate ((padBuffer buffer 4 padWith).length - buffer.length) padWith := by
  unfold padBuffer
  by_cases h : buffer.length % 4 = 0 <;> simp [h]

/-- GLB magic constant `0x46546C67` ("glTF"). -/
def glbMagic : Nat := 0x46546C67
/-- JSON chunk type `0x4E4F534A`. -/
def jsonChunkType : Nat := 0x4E4F534A
/-- BIN chunk type `0x004E4942`. -/
def binChunkType : Nat := 0x004E4942

/-- The framing part of `buildGlb` from gltfBuilder.ts (everything after
`jsonBytes = TextEncoder.encode(JSON.stringify(gltf))` and
`binaryBytes = combinedBuffer` have been computed): pads the JSON chunk
with spaces and the binary chunk with zeros, then writes the 12-byte
header followed by the length/type-prefixed chunks.  The BIN chunk is
emitted only when its (padded) length is positive, exactly as in the
source (`binaryChunkLength > 0`). -/
def buildGlbChunks (jsonBytes binaryBytes : List Nat) : List Nat :=
  let paddedJsonBytes := padBuffer jsonBytes 4 0x20
  let paddedBinaryBytes := padBuffer binaryBytes 4 0x00
  let jsonChunkLength := paddedJsonBytes.length
  let binaryChunkLength := paddedBinaryBytes.length
  let totalLength := 12 + 8 + jsonChunkLength +
    (if binaryChunkLength > 0 then 8 + binaryChunkLength else 0)
  u32LE glbMagic ++ u32LE 2 ++ u32LE totalLength ++
    u32LE jsonChunkLength ++ u32LE jsonChunkType ++ paddedJsonBytes ++
    (if binaryChunkLength > 0 then
      u32LE binaryChunkLength ++ u32LE binChunkType ++ paddedBinaryBytes
    else [])

theorem readU32_append_right (pre bs : List Nat) (k : Nat) :
    readU32 (pre ++ bs) (pre.length + k) = readU32 bs k := by
  unfold readU32
  have h : ∀ j, (pre ++ bs).getD (pre.length + k + j) 0 = bs.getD (k + j) 0 := by
    intro j
    rw [show pre.length + k + j = pre.length + (k + j) by omega,
      List.getD_append_right _ _ _ _ (by omega)]
    congr 1
    omega
  have h0 := h 0
  have h1 := h 1
  have h2 := h 2
  have h3 := h 3
  simp only [Nat.add_zero] at h0
  rw [h0, h1, h2, h3]

theorem readU32_peel (x : Nat) (rest : List Nat) (k : Nat) :
    readU32 (u32LE x ++ rest) (4 + k) = readU32 rest k := by
  have h := readU32_append_right (u32LE x) rest k
  simpa only [u32LE_length] using h

theorem readU32_five (a b c d e : Nat) (tail : List Nat) :
    readU32 (u32LE a ++ u32LE b ++ u32LE c ++ u32LE d ++ u32LE e ++ tail) 0 = a % 4294967296 ∧
    readU32 (u32LE a ++ u32LE b ++ u32LE c ++ u32LE d ++ u32LE e ++ tail) 4 = b % 4294967296 ∧
    readU32 (u32LE a ++ u32LE b ++ u32LE c ++ u32LE d ++ u32LE e ++ tail) 8 = c % 4294967296 ∧
    readU32 (u32LE a ++ u32LE b ++ u32LE c ++ u32LE d ++ u32LE e ++ tail) 12 = d % 4294967296 ∧
    readU32 (u32LE a ++ u32LE b ++ u32LE c ++ u32LE d ++ u32LE e ++ tail) 16 = e % 4294967296 := by
  simp only [List.append_assoc]
  refine ⟨readU32_u32LE_append .., ?_, ?_, ?_, ?_⟩
  · rw [show (4:Nat) = 4 + 0 from rfl, readU32_peel, readU32_u32LE_append]
  · rw [show (8:Nat) = 4 + 4 from rfl, readU32_peel,
      show (4:Nat) = 4 + 0 from rfl, readU32_peel, readU32_u32LE_append]
  · rw [show (12:Nat) = 4 + 8 from rfl, readU32_peel, show (8:Nat) = 4 + 4 from rfl,
      readU32_peel, show (4:Nat) = 4 + 0 from rfl, readU32_peel, readU32_u32LE_append]
  · rw [show (16:Nat) = 4 + 12 from rfl, readU32_peel, show (12:Nat) = 4 + 8 from rfl,
      readU32_peel, show (8:Nat) = 4 + 4 from rfl, readU32_peel,
      show (4:Nat) = 4 + 0 from rfl, readU32_peel, readU32_u32LE_append]

/-- C1 (amended form).  For all JSON-chunk bytes and combined-buffer bytes,
`buildGlb`'s framing produces: a 12-byte little-endian header with the
magic, version 2 and the total byte length of the buffer; then the JSON
chunk (padded to 4-byte alignment with 0x20) prefixed by its
**post-padding** length and the JSON type; then, **when the padded binary
buffer is nonempty**, the binary chunk (padded to alignment with zeros)
prefixed by its post-padding length and the BIN type; when the binary
buffer is empty, no binary chunk is emitted at all. -/
theorem buildGlb_frame_layout (jsonBytes binaryBytes : List Nat)
    (hsize : (buildGlbChunks jsonBytes binaryBytes).length < 4294967296) :
    (buildGlbChunks jsonBytes binaryBytes).length =
        20 + (padBuffer jsonBytes 4 0x20).length +
          (if 0 < (padBuffer binaryBytes 4 0x00).length
            then 8 + (padBuffer binaryBytes 4 0x00).length else 0) ∧
    readU32 (buildGlbChunks jsonBytes binaryBytes) 0 = glbMagic ∧
    readU32 (buildGlbChunks jsonBytes binaryBytes) 4 = 2 ∧
    readU32 (buildGlbChunks jsonBytes binaryBytes) 8 =
        (buildGlbChunks jsonBytes binaryBytes).length ∧
    readU32 (buildGlbChunks jsonBytes binaryBytes) 12 = (padBuffer jsonBytes 4 0x20).length ∧
    readU32 (buildGlbChunks jsonBytes binaryBytes) 16 = jsonChunkType ∧
    ((buildGlbChunks jsonBytes binaryBytes).drop 20).take (padBuffer jsonBytes 4 0x20).length
        = jsonBytes ++ List.replicate
            ((padBuffer jsonBytes 4 0x20).length - jsonBytes.length) 0x20 ∧
    (padBuffer jsonBytes 4 0x20).length % 4 = 0 ∧
    (0 < (padBuffer binaryBytes 4 0x00).length →
      readU32 (buildGlbChunks jsonBytes binaryBytes)
          (20 + (padBuffer jsonBytes 4 0x20).length)
        = (padBuffer binaryBytes 4 0x00).length ∧
      readU32 (buildGlbChunks jsonBytes binaryBytes)
          (24 + (padBuffer jsonBytes 4 0x20).length) = binChunkType ∧
      (buildGlbChunks jsonBytes binaryBytes).drop
          (28 + (padBuffer jsonBytes 4 0x20).length)
        = binaryBytes ++ List.replicate
            ((padBuffer binaryBytes 4 0x00).length - binaryBytes.length) 0x00 ∧
      (padBuffer binaryBytes 4 0x00).length % 4 = 0) ∧
    ((padBuffer binaryBytes 4 0x00).length = 0 →
      (buildGlbChunks jsonBytes binaryBytes).length
        = 20 + (padBuffer jsonBytes 4 0x20).length) := by
  have hpjeq := padBuffer_eq_append jsonBytes 0x20
  have hpbeq := padBuffer_eq_append binaryBytes 0x00
  have hpjm := padBuffer_length_mod jsonBytes 0x20
  have hpbm := padBuffer_length_mod binaryBytes 0x00
  set pj := padBuffer jsonBytes 4 0x20 with hpjdef
  set pb := padBuffer binaryBytes 4 0x00 with hpbdef
  set tot := 12 + 8 + pj.length + (if 0 < pb.length then 8 + pb.length else 0) with htot
  set A := u32LE glbMagic ++ u32LE 2 ++ u32LE tot ++ u32LE pj.length ++ u32LE jsonChunkType
    with hA
  set X := (if 0 < pb.length then u32LE pb.length ++ u32LE binChunkType ++ pb else [])
    with hX
  have hout : buildGlbChunks jsonBytes binaryBytes = A ++ pj ++ X := rfl
  have hAlen : A.length = 20 := by
    simp only [hA, List.length_append, u32LE_length]
  have hXlen : X.length = if 0 < pb.length then 8 + pb.length else 0 := by
    by_cases hb : 0 < pb.length <;>
      simp only [hX, hb, if_true, if_false, reduceIte, List.length_append, u32LE_length,
        List.length_nil]
  have hlen : (buildGlbChunks jsonBytes binaryBytes).length = 20 + pj.length +
      (if 0 < pb.length then 8 + pb.length else 0) := by
    rw [hout]
    simp only [List.length_append, hAlen, hXlen]
  have hout2 : buildGlbChunks jsonBytes binaryBytes = A ++ (pj ++ X) := by
    rw [hout, List.append_assoc]
  have h5 := readU32_five glbMagic 2 tot pj.length jsonChunkType (pj ++ X)
  rw [← hA] at h5
  rw [← hout2] at h5
  rw [hlen] at hsize
  have hjlt : pj.length < 4294967296 := by omega
  have htotlt : tot < 4294967296 := by rw [htot]; omega
  refine ⟨?_, ?_, ?_, ?_, ?_, ?_, ?_, hpjm, ?_, ?_⟩
  · simp only [hlen, htot]
  · rw [h5.1, Nat.mod_eq_of_lt (by norm_num [glbMagic])]
  · rw [h5.2.1]
  · rw [h5.2.2.1, Nat.mod_eq_of_lt htotlt, hlen, htot]
  · rw [h5.2.2.2.1, Nat.mod_eq_of_lt hjlt]
  · rw [h5.2.2.2.2, Nat.mod_eq_of_lt (by norm_num [jsonChunkType])]
  · rw [← hpjeq, hout2]
    have hd : (A ++ (pj ++ X)).drop 20 = pj ++ X := List.drop_left' hAlen
    rw [hd, List.take_left]
  · intro hb
    have hXval : X = u32LE pb.length ++ u32LE binChunkType ++ pb := by
      rw [hX, if_pos hb]
    have hblt : pb.length < 4294967296 := by
      rw [if_pos hb] at hsize; omega
    have hsplit : buildGlbChunks jsonBytes binaryBytes = (A ++ pj) ++ X := by
      rw [hout2]
      exact (List.append_assoc A pj X).symm
    have hprelen : (A ++ pj).length = 20 + pj.length := by
      simp only [List.length_append, hAlen]
    refine ⟨?_, ?_, ?_, hpbm⟩
    · have hr := readU32_append_right (A ++ pj) X 0
      rw [hprelen, Nat.add_zero] at hr
      rw [hsplit, hr, hXval, List.append_assoc, readU32_u32LE_append,
        Nat.mod_eq_of_lt hblt]
    · have hr := readU32_append_right (A ++ pj) X 4
      rw [hprelen] at hr
      rw [show 24 + pj.length = 20 + pj.length + 4 by omega, hsplit, hr, hXval,
        List.append_assoc, show (4:Nat) = 4 + 0 from rfl, readU32_peel,
        readU32_u32LE_append, Nat.mod_eq_of_lt (by norm_num [binChunkType])]
    · rw [← hpbeq]
      have hsplit2 : buildGlbChunks jsonBytes binaryBytes =
          (A ++ pj ++ u32LE pb.length ++ u32LE binChunkType) ++ pb := by
        rw [hout2, hXval]
        simp only [List.append_assoc]
      have hl : (A ++ pj ++ u32LE pb.length ++ u32LE binChunkType).length
          = 28 + pj.length := by
        simp only [List.length_append, hAlen, u32LE_length]
        omega
      rw [hsplit2, List.drop_left' hl]
  · intro hz
    rw [hlen, hz]
    simp

/-- C1 witness: the layout theorem applied to the concrete chunk inputs
`jsonBytes = [0x7b, 0x7d]` and `binaryBytes = [1, 2]`. -/
theorem buildGlb_frame_layout_witness :
    readU32 (buildGlbChunks [123, 125] [1, 2]) 0 = glbMagic ∧
    readU32 (buildGlbChunks [123, 125] [1, 2]) 4 = 2 ∧
    readU32 (buildGlbChunks [123, 125] [1, 2]) 8 = (buildGlbChunks [123, 125] [1, 2]).length := by
  have h := buildGlb_frame_layout [123, 125] [1, 2] (by decide)
  exact ⟨h.2.1, h.2.2.1, h.2.2.2.1⟩

/-- C1 counterexample.  With JSON bytes `[0x7b, 0x7d]` (two bytes, i.e. the
string of an empty object) and an empty combined binary buffer, the
produced container records `4` — the **post**-padding length — in the JSON
chunk-length field (the claim demands the pre-padding length `2`), and the
whole container is 24 bytes long, so no binary chunk follows the JSON
chunk at all (the claim demands one for every list of Shapes, but the
serializer omits it whenever the combined buffer is empty, e.g. for an
empty shape list). -/
theorem buildGlb_claim_counterexample :
    readU32 (buildGlbChunks [123, 125] []) 12 = 4 ∧
    ([123, 125] : List Nat).length = 2 ∧
    (buildGlbChunks [123, 125] []).length = 24 := by
  decide

/-! ## JavaScript number and string primitives

The mesh-text importer's control flow depends on JavaScript `NaN`
(`isNaN` checks) and `undefined` (out-of-range array reads), so numbers
there are modelled as `Option ℚ` with `none` playing both roles (both
behave identically in the modelled paths: arithmetic yields `NaN`,
comparisons yield `false`).  String splitting is re-implemented
structurally over `List Char` so that every definition reduces in the
kernel. -/

/-- JavaScript number that may be `NaN`/`undefined`. -/
abbrev JNum := Option ℚ

def jadd (a b : JNum) : JNum := match a, b with
  | some x, some y => some (x + y)
  | _, _ => none

def jsub (a b : JNum) : JNum := match a, b with
  | some x, some y => some (x - y)
  | _, _ => none

def jmul (a b : JNum) : JNum := match a, b with
  | some x, some y => some (x * y)
  | _, _ => none

/-- JavaScript division; division by zero gives `±Infinity` in JS, which
the modelled code paths never produce (every division is guarded by a
positivity test), so it is mapped to `none` here. -/
def jdiv (a b : JNum) : JNum := match a, b with
  | some x, some y => if y = 0 then none else some (x / y)
  | _, _ => none

/-- `Math.sqrt` modelled on rationals: exact on every perfect square
(`ratSqrt (q*q) = q` for `0 ≤ q`), nonnegative and bounded by 1 on `[0,1]`
like the real square root.  The theorems below inspect its value only at
perfect-square arguments. -/
def ratSqrt (q : ℚ) : ℚ := (Nat.sqrt q.num.toNat : ℚ) / (Nat.sqrt q.den : ℚ)

/-- `Math.sqrt` lifted to `JNum`; negative arguments give `NaN`. -/
def jsqrt (a : JNum) : JNum := match a with
  | some q => if q < 0 then none else some (ratSqrt q)
  | none => none

/-- JavaScript `a > c` where `a` may be NaN (`NaN > c` is `false`). -/
def jgtQ (a : JNum) (c : ℚ) : Bool := match a with
  | some x => decide (c < x)
  | none => false

/-- Array read `v[k]`: an out-of-range read gives `undefined`, which the
surrounding arithmetic turns into `NaN` — both are `none`. -/
def vGet (v : List JNum) (k : Nat) : JNum := v.getD k none

/-- `subtract` from objParser.ts / plyParser.ts. -/
def jsubtract (a b : List JNum) : List JNum :=
  [jsub (vGet a 0) (vGet b 0), jsub (vGet a 1) (vGet b 1), jsub (vGet a 2) (vGet b 2)]

/-- `cross` from objParser.ts / plyParser.ts. -/
def jcross (a b : List JNum) : List JNum :=
  [jsub (jmul (vGet a 1) (vGet b 2)) (jmul (vGet a 2) (vGet b 1)),
   jsub (jmul (vGet a 2) (vGet b 0)) (jmul (vGet a 0) (vGet b 2)),
   jsub (jmul (vGet a 0) (vGet b 1)) (jmul (vGet a 1) (vGet b 0))]

/-- `normalize` from objParser.ts / plyParser.ts: `len > 0.00001 ?
[v/len,...] : [0,0,0]` (a NaN length fails the comparison and yields the
zero vector). -/
def jnormalize (v : List JNum) : List JNum :=
  let len := jsqrt (jadd (jadd (jmul (vGet v 0) (vGet v 0)) (jmul (vGet v 1) (vGet v 1)))
    (jmul (vGet v 2) (vGet v 2)))
  if jgtQ len (1/100000) then [jdiv (vGet v 0) len, jdiv (vGet v 1) len, jdiv (vGet v 2) len]
  else [some 0, some 0, some 0]

/-- `s.split(sep)` on character lists (JavaScript `String.split` with a
single-character separator; `""` splits to `[""]`). -/
def splitCh (sep : Char) : List Char → List (List Char)
  | [] => [[]]
  | c :: cs =>
    let r := splitCh sep cs
    if c = sep then [] :: r
    else match r with
      | [] => [[c]]
      | h :: t => (c :: h) :: t

/-- `line.trim().split(/\s+/)` as used by the importers, with the
JavaScript result `[""]` for an all-whitespace line represented as `[]`
(the code reads that case as an absent record type, which behaves the same
as the empty-string record type). -/
def jsTokens (line : List Char) : List (List Char) :=
  (line.splitOnP Char.isWhitespace).filter (fun t => t ≠ [])

/-- Digit run to a natural number. -/
def digitsVal (cs : List Char) : Nat := cs.foldl (fun a c => 10 * a + (c.toNat - 48)) 0

/-- JavaScript `parseFloat`: optional sign, longest valid decimal prefix
(integer part, optional fraction, optional exponent), `NaN` when no digit
is found.  (`"Infinity"` inputs are out of modelled scope.) -/
def parseFloatJs (cs : List Char) : JNum :=
  let sgncs : ℚ × List Char :=
    match cs with
    | c :: r => if c = '-' then (-1, r) else if c = '+' then (1, r) else (1, cs)
    | [] => (1, cs)
  let ip := sgncs.2.takeWhile Char.isDigit
  let cs2 := sgncs.2.dropWhile Char.isDigit
  let fpcs : List Char × List Char :=
    match cs2 with
    | c :: r => if c = '.' then (r.takeWhile Char.isDigit, r.dropWhile Char.isDigit) else ([], cs2)
    | [] => ([], cs2)
  if ip = [] ∧ fpcs.1 = [] then none
  else
    let mant : ℚ := (digitsVal ip : ℚ) + (digitsVal fpcs.1 : ℚ) / ((10 : ℚ) ^ fpcs.1.length)
    let expPart : Int :=
      match fpcs.2 with
      | c :: r =>
        if c = 'e' ∨ c = 'E' then
          let esr : Int × List Char :=
            match r with
            | c2 :: r2 => if c2 = '-' then (-1, r2) else if c2 = '+' then (1, r2) else (1, r)
            | [] => (1, r)
          let ed := esr.2.takeWhile Char.isDigit
          if ed = [] then 0 else esr.1 * digitsVal ed
        else 0
      | [] => 0
    some (sgncs.1 * mant * (10 : ℚ) ^ expPart)

/-- JavaScript `parseInt(s, 10)`: optional sign then longest digit prefix,
`NaN` (here `none`) when no digit is found. -/
def parseIntJs (cs : List Char) : Option Int :=
  let sgncs : Int × List Char :=
    match cs with
    | c :: r => if c = '-' then (-1, r) else if c = '+' then (1, r) else (1, cs)
    | [] => (1, cs)
  let ds := sgncs.2.takeWhile Char.isDigit
  if ds = [] then none else some (sgncs.1 * digitsVal ds)

/-! ## Material-library parser (mtlParser.ts) -/

/-- One parsed material: only the diffuse color `Kd` is retained. -/
structure MtlMaterial where
  kd : Option (JNum × JNum × JNum)
deriving DecidableEq

/-- `Map.set`: replace the value at an existing key in place, otherwise
append a fresh entry. -/
def assocSet (l : List (List Char × MtlMaterial)) (k : List Char) (v : MtlMaterial) :
    List (List Char × MtlMaterial) :=
  match l with
  | [] => [(k, v)]
  | (k', v') :: t => if k' = k then (k, v) :: t else (k', v') :: assocSet t k v

/-- `Map.get`. -/
def assocGet (l : List (List Char × MtlMaterial)) (k : List Char) : Option MtlMaterial :=
  (l.find? (fun p => p.1 = k)).map (·.2)

/-- `parseMtl` folding state: the library and the key whose entry the
mutable `currentMaterial` reference points at. -/
structure MtlState where
  materials : List (List Char × MtlMaterial)
  currentKey : Option (List Char)

/-- One line of `parseMtl`: `newmtl` starts a fresh entry (when a name
token is present — an absent name is falsy in the source and leaves the
current material reference unchanged); `Kd` with at least three arguments
stores the parsed diffuse color on the current material; every other
record type, and `#` comments, are ignored. -/
def parseMtlLine (st : MtlState) (line : List Char) : MtlState :=
  match jsTokens line with
  | [] => st
  | ty :: parts =>
    if ty.headD ' ' = '#' then st
    else if ty = "newmtl".data then
      match parts.head? with
      | some n => { materials := assocSet st.materials n ⟨none⟩, currentKey := some n }
      | none => st
    else if ty = "Kd".data then
      if 3 ≤ parts.length then
        match st.currentKey with
        | some k =>
            let mat : MtlMaterial := ⟨some (parseFloatJs (parts.getD 0 []),
              parseFloatJs (parts.getD 1 []), parseFloatJs (parts.getD 2 []))⟩
            { st with materials := assocSet st.materials k mat }
        | none => st
      else st
    else st

/-- `parseMtl` from mtlParser.ts. -/
def parseMtl (mtlText : List Char) : List (List Char × MtlMaterial) :=
  ((splitCh '\n' mtlText).foldl parseMtlLine ⟨[], none⟩).materials

/-! ## Mesh-text importer (objParser.ts) -/

/-- One (already fan-triangulated) face record with the material tag in
effect when it was read. -/
structure ObjFace where
  indices : List (Option Int)
  material : Option (List Char)
deriving DecidableEq

/-- First-pass state of `parseObj`. -/
structure ObjScanState where
  tempVertices : List (List JNum)
  faces : List ObjFace
  currentMaterialName : Option (List Char)

/-- The fan-triangulation loop of `parseObj`/`parsePly`:
`for (i = 1; i < n - 1; i++) push([xs[0], xs[i], xs[i+1]])`. -/
def fanTriples (xs : List (Option Int)) : List (List (Option Int)) :=
  (List.range (xs.length - 2)).map fun k => [xs.getD 0 none, xs.getD (k+1) none, xs.getD (k+2) none]

/-- One line of `parseObj`'s first pass: `v` records a vertex (every token
through `parseFloat`), `usemtl` retags subsequent faces, `f` parses
1-based indices (`part.split('/')[0]` through `parseInt`, minus 1) and
fan-triangulates immediately. -/
def objScanLine (st : ObjScanState) (line : List Char) : ObjScanState :=
  match jsTokens line with
  | [] => st
  | ty :: parts =>
    if ty = "v".data then
      { st with tempVertices := st.tempVertices ++ [parts.map parseFloatJs] }
    else if ty = "usemtl".data then
      { st with currentMaterialName := parts.head? }
    else if ty = "f".data then
      let faceIndices := parts.map fun part =>
        (parseIntJs ((splitCh '/' part).getD 0 [])).map (· - 1)
      let newFaces := (fanTriples faceIndices).map (fun t => ObjFace.mk t st.currentMaterialName)
      { st with faces := st.faces ++ newFaces }
    else st

/-- `tempVertices[i]` for a signed index: negative or out-of-range reads
give `undefined` (`none`), which the `!v1 || !v2 || !v3` guard catches. -/
def lookupVertex (verts : List (List JNum)) (i : Int) : Option (List JNum) :=
  if 0 ≤ i ∧ i.toNat < verts.length then some (verts.getD i.toNat []) else none

/-- The importer's canonical output (`Geometry`): flat float arrays plus
optional per-vertex colors. -/
structure ObjGeometry where
  positions : List JNum
  normals : List JNum
  indices : List Nat
  colors : Option (List JNum)
deriving DecidableEq

/-- Second-pass (emission) state of `parseObj`. -/
structure ObjBuildState where
  positions : List JNum
  normals : List JNum
  colors : List JNum
  indices : List Nat
  currentIndex : Nat

/-- The fixed neutral gray `[0.8, 0.8, 0.8]`. -/
def defaultGray : List JNum := [some (4/5), some (4/5), some (4/5)]

/-- One iteration of `parseObj`'s emission loop: skip a face whose index
list is not exactly three non-NaN entries or whose vertices are out of
range; otherwise de-index the three source vertices into fresh slots,
give all three corners the normalized cross product of the two edge
vectors from the first vertex as normal, resolve the face color (material
diffuse, or neutral gray) when the library defines any color, and append
three consecutive indices. -/
def emitObjFace (verts : List (List JNum)) (hasMaterialColors : Bool)
    (materials : List (List Char × MtlMaterial)) (st : ObjBuildState) (face : ObjFace) :
    ObjBuildState :=
  if face.indices.any (fun i => i.isNone) ∨ face.indices.length ≠ 3 then st
  else
    let i0 := (face.indices.getD 0 none).getD 0
    let i1 := (face.indices.getD 1 none).getD 0
    let i2 := (face.indices.getD 2 none).getD 0
    match lookupVertex verts i0, lookupVertex verts i1, lookupVertex verts i2 with
    | some v1, some v2, some v3 =>
      let edge1 := jsubtract v2 v1
      let edge2 := jsubtract v3 v1
      let normal := jnormalize (jcross edge1 edge2)
      let faceColor : List JNum :=
        match face.material with
        | some m =>
          match assocGet materials m with
          | some mat =>
            match mat.kd with
            | some (r, g, b) => [r, g, b]
            | none => defaultGray
          | none => defaultGray
        | none => defaultGray
      { positions := st.positions ++ v1 ++ v2 ++ v3
        normals := st.normals ++ normal ++ normal ++ normal
        colors := st.colors ++ (if hasMaterialColors then faceColor ++ faceColor ++ faceColor else [])
        indices := st.indices ++ [st.currentIndex, st.currentIndex + 1, st.currentIndex + 2]
        currentIndex := st.currentIndex + 3 }
    | _, _, _ => st

/-- `parseObj` from objParser.ts (current version, with optional material
text).  The importer never throws: there is no failure path in the
source. -/
def parseObj (objText : List Char) (mtlText : Option (List Char)) : ObjGeometry :=
  let materials := match mtlText with
    | some t => parseMtl t
    | none => []
  let scan := (splitCh '\n' objText).foldl objScanLine ⟨[], [], none⟩
  let hasMaterialColors := materials.any fun p => p.2.kd.isSome
  let final := scan.faces.foldl (emitObjFace scan.tempVertices hasMaterialColors materials)
    ⟨[], [], [], [], 0⟩
  { positions := final.positions
    normals := final.normals
    indices := final.indices
    colors := if hasMaterialColors then some final.colors else none }

/-! ### Facts about the mesh-text importer -/

theorem lookupVertex_nil (i : Int) : lookupVertex [] i = none := by
  simp [lookupVertex]

theorem emitObjFace_nil (b : Bool) (m : List (List Char × MtlMaterial))
    (st : ObjBuildState) (f : ObjFace) : emitObjFace [] b m st f = st := by
  unfold emitObjFace
  split
  · rfl
  · simp [lookupVertex_nil]

theorem foldl_emitObjFace_nil (b : Bool) (m : List (List Char × MtlMaterial))
    (faces : List ObjFace) (st : ObjBuildState) :
    faces.foldl (emitObjFace [] b m) st = st := by
  induction faces generalizing st with
  | nil => rfl
  | cons f t ih => rw [List.foldl_cons, emitObjFace_nil, ih]

theorem emitObjFace_indices (v : List (List JNum)) (b : Bool)
    (m : List (List Char × MtlMaterial)) (st : ObjBuildState) (f : ObjFace) :
    (emitObjFace v b m st f).indices = st.indices ∨
    (emitObjFace v b m st f).indices =
      st.indices ++ [st.currentIndex, st.currentIndex + 1, st.currentIndex + 2] := by
  unfold emitObjFace
  split
  · exact Or.inl rfl
  · dsimp only
    split
    · exact Or.inr rfl
    · exact Or.inl rfl

theorem foldl_emitObjFace_indices_mod (v : List (List JNum)) (b : Bool)
    (m : List (List Char × MtlMaterial)) (faces : List ObjFace) (st : ObjBuildState) :
    (faces.foldl (emitObjFace v b m) st).indices.length % 3 = st.indices.length % 3 := by
  induction faces generalizing st with
  | nil => rfl
  | cons f t ih =>
    rw [List.foldl_cons, ih]
    rcases emitObjFace_indices v b m st f with h | h <;> rw [h]
    simp only [List.length_append, List.length_cons, List.length_nil]
    omega

/-- C4 counterexample.  An input consisting of a face record but **no
vertex-position records** makes the importer return an empty `Geometry`; it
does not throw (the importer's source contains no failure path at all),
whereas the claim requires a `ParseError` exactly on such inputs. -/
theorem parseObj_no_positions_counterexample :
    parseObj "f 1 2 3".data none = ⟨[], [], [], none⟩ := by
  with_unfolding_all decide

/-- C4 (amended form).  The mesh-text importer never fails: on every
input (material text or not) it returns a `Geometry` whose index list is a
whole number of triangles, and when the input contains no vertex-position
records the result is simply the empty geometry — an input without
positions is not an error. -/
theorem parseObj_never_fails (objText : List Char) (mtlText : Option (List Char)) :
    (parseObj objText mtlText).indices.length % 3 = 0 ∧
    (((splitCh '\n' objText).foldl objScanLine ⟨[], [], none⟩).tempVertices = [] →
      (parseObj objText mtlText).positions = [] ∧
      (parseObj objText mtlText).normals = [] ∧
      (parseObj objText mtlText).indices = []) := by
  constructor
  · unfold parseObj
    dsimp only
    rw [foldl_emitObjFace_indices_mod]
    rfl
  · intro hv
    unfold parseObj
    dsimp only
    rw [hv, foldl_emitObjFace_nil]
    exact ⟨rfl, rfl, rfl⟩

/-- C4 witness: the never-fails theorem applied to the concrete
position-free input `"f 1 2 3"`. -/
theorem parseObj_never_fails_witness :
    (parseObj "f 1 2 3".data none).positions = [] ∧
    (parseObj "f 1 2 3".data none).indices.length % 3 = 0 := by
  have h := parseObj_never_fails "f 1 2 3".data none
  exact ⟨(h.2 (by with_unfolding_all decide)).1, h.1⟩

/-- C5.  (1) Fan triangulation of an n-vertex face record (n ≥ 3)
produces exactly n−2 triangles, the k-th being (first, k+1-st, k+2-nd) of
the listed vertices.  (2) Every emitted triangle de-indexes its three
source vertices into fresh position slots and assigns all three corners
the normalized cross product of the two edge vectors from the first
vertex, appending three fresh consecutive indices.  (3) The unit-square
scenario: `f 1 2 3 4` over the four coplanar unit-square vertices yields
2 triangles, 18 position floats (6 de-indexed vertices), and every corner
normal equal to (0,0,1). -/
theorem obj_fan_triangulation :
    (∀ xs : List (Option Int), 3 ≤ xs.length →
      (fanTriples xs).length = xs.length - 2 ∧
      ∀ k, k < xs.length - 2 →
        (fanTriples xs).getD k [] = [xs.getD 0 none, xs.getD (k+1) none, xs.getD (k+2) none]) ∧
    (∀ (verts : List (List JNum)) (b : Bool) (materials : List (List Char × MtlMaterial))
        (st : ObjBuildState) (a1 a2 a3 : Int) (mat : Option (List Char))
        (v1 v2 v3 : List JNum),
      lookupVertex verts a1 = some v1 → lookupVertex verts a2 = some v2 →
      lookupVertex verts a3 = some v3 →
      (emitObjFace verts b materials st ⟨[some a1, some a2, some a3], mat⟩).positions
          = st.positions ++ v1 ++ v2 ++ v3 ∧
      (emitObjFace verts b materials st ⟨[some a1, some a2, some a3], mat⟩).normals
          = st.normals ++ jnormalize (jcross (jsubtract v2 v1) (jsubtract v3 v1))
              ++ jnormalize (jcross (jsubtract v2 v1) (jsubtract v3 v1))
              ++ jnormalize (jcross (jsubtract v2 v1) (jsubtract v3 v1)) ∧
      (emitObjFace verts b materials st ⟨[some a1, some a2, some a3], mat⟩).indices
          = st.indices ++ [st.currentIndex, st.currentIndex + 1, st.currentIndex + 2]) ∧
    parseObj "v 0 0 0\nv 1 0 0\nv 1 1 0\nv 0 1 0\nf 1 2 3 4".data none =
      ⟨[some 0, some 0, some 0, some 1, some 0, some 0, some 1, some 1, some 0,
        some 0, some 0, some 0, some 1, some 1, some 0, some 0, some 1, some 0],
       [some 0, some 0, some 1, some 0, some 0, some 1, some 0, some 0, some 1,
        some 0, some 0, some 1, some 0, some 0, some 1, some 0, some 0, some 1],
       [0, 1, 2, 3, 4, 5], none⟩ := by
  refine ⟨?_, ?_, ?_⟩
  · intro xs h
    constructor
    · simp [fanTriples]
    · intro k hk
      simp only [fanTriples, List.getD]
      rw [List.get?_map, List.get?_range hk]
      rfl
  · intro verts b materials st a1 a2 a3 mat v1 v2 v3 h1 h2 h3
    unfold emitObjFace
    rw [if_neg (by simp)]
    simp only [List.getD_cons_zero, List.getD_cons_succ, Option.getD_some, h1, h2, h3]
    exact ⟨trivial, trivial, trivial⟩
  · with_unfolding_all decide

/-- C5 witness: the triangulation theorem applied at a concrete 4-index
face and a concrete emission state. -/
theorem obj_fan_triangulation_witness :
    (fanTriples [some 0, some 1, some 2, some 3]).length = 2 ∧
    (emitObjFace [[some 5, some 5, some 5]] false [] ⟨[], [], [], [], 0⟩
      ⟨[some 0, some 0, some 0], none⟩).indices = [0, 1, 2] := by
  have h := obj_fan_triangulation
  constructor
  · exact (h.1 [some 0, some 1, some 2, some 3] (by decide)).1
  · have hb := h.2.1 [[some 5, some 5, some 5]] false [] ⟨[], [], [], [], 0⟩ 0 0 0 none
      [some 5, some 5, some 5] [some 5, some 5, some 5] [some 5, some 5, some 5]
      (by with_unfolding_all decide) (by with_unfolding_all decide)
      (by with_unfolding_all decide)
    simpa using hb.2.2

/-! ## Binary-container importer (glbParser.ts)

The byte-level header/chunk stage (lines 44–102 of the source) is modelled
directly on the byte list.  `JSON.parse` of the JSON chunk and
`getAccessorData`'s resolution of accessors against the binary chunk are
the abstraction boundary: the document argument `GlbDoc` carries, for each
primitive of each mesh, the already-resolved attribute arrays exactly as
`getAccessorData` returns them (so an absent attribute is `none`, and the
color/uv normalization logic below is translated from the source).  An
out-of-range typed-array read inside the normalization (possible only for
inconsistent accessor counts, whose values no theorem below inspects)
yields 0 in place of JavaScript NaN. -/

inductive GlbErr where
  | rangeErr
  | badMagic
  | badVersion
  | firstChunkNotJson
  | noBinChunk
  | noMesh
  | noPrimitives
  | writeOverflow
deriving DecidableEq

/-- `DataView.getUint32(off, true)`: throws a `RangeError` (here `none`)
when fewer than 4 bytes remain. -/
def readU32At (bs : List Nat) (off : Nat) : Option Nat :=
  if off + 4 ≤ bs.length then some (readU32 bs off) else none

/-- The `while (chunkOffset < byteLength)` scan for the BIN chunk
(lines 76–88): read a chunk length and type (a truncated header is a
thrown `RangeError`), slice the BIN chunk when found
(`ArrayBuffer.slice` clamps, hence `take`), otherwise skip the declared
chunk length.  The loop advances the offset by at least 8 per iteration,
so the fuel `bs.length + 1` of the wrapper below is never exhausted. -/
def findBinChunkFuel (fuel : Nat) (bs : List Nat) (off : Nat) :
    Except GlbErr (Option (List Nat)) :=
  match fuel with
  | 0 => .ok none
  | fuel + 1 =>
    if off < bs.length then
      match readU32At bs off, readU32At bs (off + 4) with
      | some chunkLength, some chunkType =>
        if chunkType = binChunkType then
          .ok (some ((bs.drop (off + 8)).take chunkLength))
        else
          findBinChunkFuel fuel bs (off + 8 + chunkLength)
      | _, _ => .error .rangeErr
    else .ok none

def findBinChunk (bs : List Nat) (off : Nat) : Except GlbErr (Option (List Nat)) :=
  findBinChunkFuel (bs.length + 1) bs off

/-- Header/chunk stage of `parseGlb` (lines 44–92): magic and version
checks, JSON chunk header and type check, the `Uint8Array` view of the
JSON chunk (throws when it overruns the buffer), and the BIN chunk scan.
Returns the JSON chunk bytes and the BIN chunk bytes. -/
def parseGlbHeader (bs : List Nat) : Except GlbErr (List Nat × List Nat) :=
  match readU32At bs 0 with
  | none => .error .rangeErr
  | some magic =>
    if magic ≠ glbMagic then .error .badMagic
    else match readU32At bs 4 with
      | none => .error .rangeErr
      | some version =>
        if version ≠ 2 then .error .badVersion
        else match readU32At bs 12 with
          | none => .error .rangeErr
          | some jsonChunkLength =>
            match readU32At bs 16 with
            | none => .error .rangeErr
            | some jsonType =>
              if jsonType ≠ jsonChunkType then .error .firstChunkNotJson
              else if 20 + jsonChunkLength ≤ bs.length then
                match findBinChunk bs (20 + jsonChunkLength) with
                | .error e => .error e
                | .ok none => .error .noBinChunk
                | .ok (some bin) => .ok ((bs.drop 20).take jsonChunkLength, bin)
              else .error .rangeErr

/-- `GeometryPrimitive` (geometry.ts): per-primitive range metadata. -/
structure SubRange where
  indicesOffset : Nat
  indicesCount : Nat
  texture : Option String
  color : Option (ℚ × ℚ × ℚ × ℚ)
deriving DecidableEq

/-- A COLOR_0 accessor as resolved by `getAccessorData`, with the fields
the normalization reads (`componentType`, `type`, `count`). -/
structure ColorAttr where
  compType : Nat
  vecType : String
  count : Nat
  data : List ℚ
deriving DecidableEq

/-- A TEXCOORD_0 accessor as resolved by `getAccessorData`. -/
structure UvAttr where
  compType : Nat
  count : Nat
  data : List ℚ
deriving DecidableEq

/-- One primitive of the first mesh, attributes already resolved:
`none` = the attribute/indices accessor is absent; `texture?`/`baseColor?`
are the material data resolved from the document (lines 268–300). -/
structure GlbPrim where
  positions? : Option (List ℚ)
  normals? : Option (List ℚ)
  colors? : Option ColorAttr
  uvs? : Option UvAttr
  indices? : Option (List Nat)
  texture? : Option String
  baseColor? : Option (ℚ × ℚ × ℚ × ℚ)
deriving DecidableEq

structure GlbMesh where
  primitives : List GlbPrim
deriving DecidableEq

structure GlbDoc where
  meshes : List GlbMesh
deriving DecidableEq

/-- `255`/`65535` normalization divisor for unsigned byte/short sources. -/
def normFactorOf (compType : Nat) : ℚ :=
  if compType = 5121 then 255 else if compType = 5123 then 65535 else 1

/-- Lines 186–210: colors are normalized to 4-float RGBA; a VEC3 source
gets alpha 1.0; byte/short sources are divided by their maximum. -/
def resolveColors (c : ColorAttr) : List ℚ :=
  let isVec4 := c.vecType = "VEC4"
  let isVec3 := c.vecType = "VEC3"
  let srcStride := if isVec4 then 4 else if isVec3 then 3 else 0
  let nf := normFactorOf c.compType
  ((List.range c.count).map fun i =>
    [c.data.getD (i * srcStride) 0 / nf,
     c.data.getD (i * srcStride + 1) 0 / nf,
     c.data.getD (i * srcStride + 2) 0 / nf,
     if isVec4 then c.data.getD (i * srcStride + 3) 0 / nf else 1]).flatten

/-- Lines 227–247: float UVs pass through, integer UVs are normalized. -/
def resolveUvs (u : UvAttr) : List ℚ :=
  if u.compType = 5126 then u.data
  else
    let nf := normFactorOf u.compType
    (List.range (u.count * 2)).map fun i => u.data.getD i 0 / nf

/-- The primitive's position array (`[]` only on skipped primitives). -/
def primPos (p : GlbPrim) : List ℚ := p.positions?.getD []

/-- `vertexCount = positions.length / 3`. -/
def primVC (p : GlbPrim) : Nat := (primPos p).length / 3

/-- Lines 171–178: absent normals become a zero array of position size. -/
def primNorm (p : GlbPrim) : List ℚ :=
  p.normals?.getD (List.replicate (primPos p).length 0)

/-- Lines 183–222: normalized RGBA colors, opaque white per vertex when
the attribute is absent. -/
def primCol (p : GlbPrim) : List ℚ :=
  match p.colors? with
  | some c => resolveColors c
  | none => List.replicate (primVC p * 4) 1

/-- Lines 225–248: UVs, zero per vertex when the attribute is absent. -/
def primUv (p : GlbPrim) : List ℚ :=
  match p.uvs? with
  | some u => resolveUvs u
  | none => List.replicate (primVC p * 2) 0

/-- Lines 251–265: indices as 16-bit values (`new Uint16Array(raw)`
truncates wider integer sources), or the identity 0..vertexCount-1 when
absent. -/
def primInd (p : GlbPrim) : List Nat :=
  match p.indices? with
  | some raw => raw.map (· % 65536)
  | none => List.range (primVC p)

/-- One collected primitive: resolved arrays kept for the merge pass. -/
structure ResolvedPrim where
  pos : List ℚ
  norm : List ℚ
  col : List ℚ
  uv : List ℚ
  ind : List Nat
deriving DecidableEq

/-- State of the primitive-iteration loop (lines 147–312). -/
structure CollectState where
  rps : List ResolvedPrim
  subs : List SubRange
  totalVertexCount : Nat
  totalIndexCount : Nat
deriving DecidableEq

/-- One iteration of the primitive loop: a primitive without a POSITION
attribute is skipped (`continue`); otherwise its resolved arrays are
collected and one `SubRange` records the running index count and the
primitive's index count together with its material data. -/
def collectStep (st : CollectState) (p : GlbPrim) : CollectState :=
  match p.positions? with
  | none => st
  | some _ =>
    { rps := st.rps ++ [⟨primPos p, primNorm p, primCol p, primUv p, primInd p⟩]
      subs := st.subs ++ [⟨st.totalIndexCount, (primInd p).length, p.texture?, p.baseColor?⟩]
      totalVertexCount := st.totalVertexCount + primVC p
      totalIndexCount := st.totalIndexCount + (primInd p).length }

/-- Splice write with silently clamped out-of-range tail, the semantics of
per-element typed-array assignment (used by the index re-basing loop). -/
def jsWriteTrunc {α : Type} (dest src : List α) (off : Nat) : List α :=
  dest.take off ++ src.take (dest.length - off) ++ dest.drop (off + src.length)

/-- `TypedArray.set(src, off)`: throws a `RangeError` when the source
overruns the destination. -/
def jsSetStrict {α : Type} (dest src : List α) (off : Nat) : Except GlbErr (List α) :=
  if off + src.length ≤ dest.length then .ok (jsWriteTrunc dest src off)
  else .error .writeOverflow

/-- State of the merge loop (lines 322–347). -/
structure MergeState where
  mp : List ℚ
  mn : List ℚ
  mc : List ℚ
  mu : List ℚ
  mi : List Nat
  vOffset : Nat
  iOffset : Nat
  indexBase : Nat
deriving DecidableEq

/-- One iteration of the merge loop: positions and normals written at the
running float offset, colors at `vOffset * 4/3`, UVs at `vOffset / 3 * 2`
(the source computes these in float arithmetic; they are integral
whenever every position array is a whole number of vertices), indices
re-based by `indexBase` and stored as 16 bits. -/
def mergeStep (st : MergeState) (rp : ResolvedPrim) : Except GlbErr MergeState := do
  let mp ← jsSetStrict st.mp rp.pos st.vOffset
  let mn ← jsSetStrict st.mn rp.norm st.vOffset
  let mc ← jsSetStrict st.mc rp.col (st.vOffset * 4 / 3)
  let mu ← jsSetStrict st.mu rp.uv (st.vOffset / 3 * 2)
  let mi := jsWriteTrunc st.mi (rp.ind.map fun j => (j + st.indexBase) % 65536) st.iOffset
  .ok { mp := mp, mn := mn, mc := mc, mu := mu, mi := mi,
        vOffset := st.vOffset + rp.pos.length,
        iOffset := st.iOffset + rp.ind.length,
        indexBase := st.indexBase + rp.pos.length / 3 }

/-- The importer's merged output `Geometry` (glbParser.ts lines 356–364):
colors are always 4 floats per vertex and UVs 2 floats per vertex. -/
structure GlbGeometry where
  positions : List ℚ
  normals : List ℚ
  indices : List Nat
  colors : List ℚ
  uvs : List ℚ
  texture : Option String
  primitives : List SubRange
deriving DecidableEq

/-- Lines 147–364: iterate every primitive, then merge into single
arrays sized from the totals, with the first texture found as the legacy
fallback texture. -/
def mergePrims (prims : List GlbPrim) : Except GlbErr GlbGeometry := do
  let c := prims.foldl collectStep ⟨[], [], 0, 0⟩
  let init : MergeState :=
    ⟨List.replicate (c.totalVertexCount * 3) 0, List.replicate (c.totalVertexCount * 3) 0,
     List.replicate (c.totalVertexCount * 4) 0, List.replicate (c.totalVertexCount * 2) 0,
     List.replicate c.totalIndexCount 0, 0, 0, 0⟩
  let m ← c.rps.foldlM mergeStep init
  .ok { positions := m.mp, normals := m.mn, indices := m.mi, colors := m.mc, uvs := m.mu,
        texture := ((c.subs.find? fun s => s.texture.isSome).bind fun s => s.texture),
        primitives := c.subs }

/-- `parseGlb`: byte-level header/chunk stage, then the first mesh of the
(abstracted) parsed document, then the primitive merge.  The absence of a
mesh and the absence of primitives are the two document-level failures. -/
def parseGlb (bytes : List Nat) (doc : GlbDoc) : Except GlbErr GlbGeometry :=
  match parseGlbHeader bytes with
  | .error e => .error e
  | .ok _ =>
    match doc.meshes.head? with
    | none => .error .noMesh
    | some mesh =>
      if mesh.primitives.isEmpty then .error .noPrimitives
      else mergePrims mesh.primitives

/-- The primitives that are kept (those with a POSITION attribute). -/
def keptPrims (prims : List GlbPrim) : List GlbPrim :=
  prims.filter fun p => p.positions?.isSome

/-! ### Splice-write toolkit -/

theorem jsWriteTrunc_length {α : Type} (d s : List α) (off : Nat) :
    (jsWriteTrunc d s off).length = d.length := by
  unfold jsWriteTrunc
  simp only [List.length_append, List.length_take, List.length_drop]
  omega

theorem jsWriteTrunc_getElem? {α : Type} (d s : List α) (off i : Nat) :
    (jsWriteTrunc d s off)[i]? =
      if i < d.length then
        (if off ≤ i ∧ i < off + s.length then s[i - off]? else d[i]?)
      else none := by
  unfold jsWriteTrunc
  simp only [List.getElem?_append, List.getElem?_take, List.getElem?_drop, List.length_take,
    List.length_drop, List.length_append]
  split_ifs <;>
    first
      | rfl
      | (exfalso; omega)
      | (congr 1; omega)
      | (apply List.getElem?_eq_none; omega)

theorem jsWriteTrunc_comp {α : Type} (d s1 s2 : List α) (off : Nat) :
    jsWriteTrunc (jsWriteTrunc d s1 off) s2 (off + s1.length) =
      jsWriteTrunc d (s1 ++ s2) off := by
  apply List.ext_getElem?
  intro n
  simp only [jsWriteTrunc_getElem?, jsWriteTrunc_length, List.length_append,
    List.getElem?_append]
  split_ifs <;>
    first
      | rfl
      | (exfalso; omega)
      | (congr 1; omega)

theorem jsWriteTrunc_zero_full {α : Type} (d s : List α) (h : s.length = d.length) :
    jsWriteTrunc d s 0 = s := by
  apply List.ext_getElem?
  intro n
  rw [jsWriteTrunc_getElem?]
  split_ifs <;>
    first
      | (simp only [Nat.sub_zero])
      | (exfalso; omega)
      | (symm; apply List.getElem?_eq_none; omega)

theorem jsWriteTrunc_take_stable {α : Type} (d s : List α) (off e : Nat) (he : e ≤ off) :
    (jsWriteTrunc d s off).take e = d.take e := by
  apply List.ext_getElem?
  intro n
  simp only [List.getElem?_take, jsWriteTrunc_getElem?]
  split_ifs <;>
    first
      | rfl
      | (exfalso; omega)
      | (exact (List.getElem?_eq_none (by omega)).symm)

theorem jsWriteTrunc_region {α : Type} (d s : List α) (off : Nat)
    (h : off + s.length ≤ d.length) :
    ((jsWriteTrunc d s off).drop off).take s.length = s := by
  apply List.ext_getElem?
  intro n
  simp only [List.getElem?_take, List.getElem?_drop, jsWriteTrunc_getElem?]
  split_ifs <;>
    first
      | rfl
      | (exfalso; omega)
      | (congr 1; omega)
      | (exact List.getElem?_eq_none (by omega))
      | (exact (List.getElem?_eq_none (by omega)).symm)

theorem jsWriteTrunc_nil {α : Type} (d : List α) (off : Nat) :
    jsWriteTrunc d ([] : List α) off = d := by
  unfold jsWriteTrunc
  simp only [List.take_nil, List.length_nil, Nat.add_zero, List.nil_append,
    List.append_nil]
  exact List.take_append_drop off d

theorem take_eq_of_take_eq {α : Type} {X Y : List α} {e' : Nat}
    (h : X.take e' = Y.take e') (e : Nat) (he : e ≤ e') : X.take e = Y.take e := by
  have := congrArg (List.take e) h
  rwa [List.take_take, List.take_take, Nat.min_eq_left he] at this

theorem slice_of_take_eq {α : Type} {X Y : List α} {e a n : Nat}
    (h : X.take e = Y.take e) (han : a + n ≤ e) :
    (X.drop a).take n = (Y.drop a).take n := by
  apply List.ext_getElem?
  intro i
  simp only [List.getElem?_take, List.getElem?_drop]
  split_ifs with hi
  · have h1 := congrArg (fun l => l[a + i]?) h
    simpa only [List.getElem?_take, if_pos (by omega : a + i < e)] using h1
  · rfl

/-! ### Collect-stage characterization -/

theorem collectStep_skip (st : CollectState) (p : GlbPrim) (h : p.positions? = none) :
    collectStep st p = st := by
  unfold collectStep
  rw [h]

theorem foldl_collect_filter (prims : List GlbPrim) (st : CollectState) :
    prims.foldl collectStep st = (keptPrims prims).foldl collectStep st := by
  induction prims generalizing st with
  | nil => rfl
  | cons p t ih =>
    cases hp : p.positions? with
    | none =>
      rw [List.foldl_cons, collectStep_skip st p hp, keptPrims, List.filter_cons]
      simp only [hp, Option.isSome_none, Bool.false_eq_true, if_false, reduceIte]
      exact ih st
    | some pos =>
      rw [List.foldl_cons, keptPrims, List.filter_cons]
      simp only [hp, Option.isSome_some, if_true, reduceIte]
      rw [List.foldl_cons]
      exact ih (collectStep st p)

/-- What the claims call "the sum of the vertex counts". -/
def sumVC (l : List GlbPrim) : Nat := (l.map primVC).sum

/-- Total index count over a primitive list. -/
def sumIC (l : List GlbPrim) : Nat := (l.map fun p => (primInd p).length).sum

/-- A kept primitive's resolved arrays, bundled. -/
def toResolved (p : GlbPrim) : ResolvedPrim :=
  ⟨primPos p, primNorm p, primCol p, primUv p, primInd p⟩

/-- Specification-side sub-primitive ranges: the k-th kept primitive's
range starts at the running index count and spans its index count
(spec §4.4). -/
def specSubs (base : Nat) : List GlbPrim → List SubRange
  | [] => []
  | p :: t => ⟨base, (primInd p).length, p.texture?, p.baseColor?⟩ ::
      specSubs (base + (primInd p).length) t

theorem foldl_collect_kept (l : List GlbPrim) (hl : ∀ p ∈ l, p.positions?.isSome = true) :
    ∀ st : CollectState, l.foldl collectStep st =
      ⟨st.rps ++ l.map toResolved, st.subs ++ specSubs st.totalIndexCount l,
       st.totalVertexCount + sumVC l, st.totalIndexCount + sumIC l⟩ := by
  induction l with
  | nil =>
    intro st
    cases st
    simp [sumVC, sumIC, specSubs]
  | cons p t ih =>
    intro st
    have hp := hl p (List.mem_cons_self ..)
    obtain ⟨pos, hpos⟩ := Option.isSome_iff_exists.mp hp
    rw [List.foldl_cons]
    have hstep : collectStep st p =
        ⟨st.rps ++ [toResolved p],
         st.subs ++ [⟨st.totalIndexCount, (primInd p).length, p.texture?, p.baseColor?⟩],
         st.totalVertexCount + primVC p, st.totalIndexCount + (primInd p).length⟩ := by
      unfold collectStep
      rw [hpos]
      rfl
    rw [hstep, ih (fun q hq => hl q (List.mem_cons_of_mem _ hq))]
    simp only [sumVC, sumIC, specSubs, List.map_cons, List.sum_cons, List.append_assoc,
      List.singleton_append, CollectState.mk.injEq]
    exact ⟨trivial, trivial, by omega, by omega⟩

/-! ### Merge-stage characterization -/

theorem jsSetStrict_ok {α : Type} {d s : List α} {off : Nat} {out : List α}
    (h : jsSetStrict d s off = .ok out) :
    out = jsWriteTrunc d s off ∧ off + s.length ≤ d.length := by
  unfold jsSetStrict at h
  split_ifs at h with hc
  · exact ⟨(Except.ok.inj h).symm, hc⟩

theorem mergeStep_ok {st : MergeState} {rp : ResolvedPrim} {st1 : MergeState}
    (h : mergeStep st rp = .ok st1) :
    st1.mp = jsWriteTrunc st.mp rp.pos st.vOffset ∧
    st.vOffset + rp.pos.length ≤ st.mp.length ∧
    st1.mn = jsWriteTrunc st.mn rp.norm st.vOffset ∧
    st.vOffset + rp.norm.length ≤ st.mn.length ∧
    st1.mc = jsWriteTrunc st.mc rp.col (st.vOffset * 4 / 3) ∧
    st.vOffset * 4 / 3 + rp.col.length ≤ st.mc.length ∧
    st1.mu = jsWriteTrunc st.mu rp.uv (st.vOffset / 3 * 2) ∧
    st.vOffset / 3 * 2 + rp.uv.length ≤ st.mu.length ∧
    st1.mi = jsWriteTrunc st.mi (rp.ind.map fun j => (j + st.indexBase) % 65536) st.iOffset ∧
    st1.vOffset = st.vOffset + rp.pos.length ∧
    st1.iOffset = st.iOffset + rp.ind.length ∧
    st1.indexBase = st.indexBase + rp.pos.length / 3 := by
  unfold mergeStep at h
  cases h1 : jsSetStrict st.mp rp.pos st.vOffset with
  | error e => rw [h1] at h; exact absurd h (by simp only [Bind.bind, Except.bind]; exact fun hh => Except.noConfusion hh)
  | ok mp1 =>
    rw [h1] at h
    simp only [Bind.bind, Except.bind] at h
    cases h2 : jsSetStrict st.mn rp.norm st.vOffset with
    | error e => rw [h2] at h; exact absurd h (by simp only [Bind.bind, Except.bind]; exact fun hh => Except.noConfusion hh)
    | ok mn1 =>
      rw [h2] at h
      simp only [Bind.bind, Except.bind] at h
      cases h3 : jsSetStrict st.mc rp.col (st.vOffset * 4 / 3) with
      | error e => rw [h3] at h; exact absurd h (by simp only [Bind.bind, Except.bind]; exact fun hh => Except.noConfusion hh)
      | ok mc1 =>
        rw [h3] at h
        simp only [Bind.bind, Except.bind] at h
        cases h4 : jsSetStrict st.mu rp.uv (st.vOffset / 3 * 2) with
        | error e => rw [h4] at h; exact absurd h (by simp only [Bind.bind, Except.bind]; exact fun hh => Except.noConfusion hh)
        | ok mu1 =>
          rw [h4] at h
          simp only [Bind.bind, Except.bind] at h
          have hst1 := (Except.ok.inj h).symm
          obtain ⟨e1, f1⟩ := jsSetStrict_ok h1
          obtain ⟨e2, f2⟩ := jsSetStrict_ok h2
          obtain ⟨e3, f3⟩ := jsSetStrict_ok h3
          obtain ⟨e4, f4⟩ := jsSetStrict_ok h4
          subst hst1
          exact ⟨e1, f1, e2, f2, e3, f3, e4, f4, rfl, rfl, rfl, rfl⟩

/-- Specification-side merged index array: each primitive's indices
re-based by the running vertex count, 16-bit. -/
def specIndices (base : Nat) : List ResolvedPrim → List Nat
  | [] => []
  | rp :: t => rp.ind.map (fun j => (j + base) % 65536) ++
      specIndices (base + rp.pos.length / 3) t

/-- Vertex-count sum of resolved primitives. -/
def vcSumR (l : List ResolvedPrim) : Nat := (l.map fun rp => rp.pos.length / 3).sum

theorem mergeFold_ok (rps : List ResolvedPrim) :
    ∀ st m : MergeState,
    List.foldlM mergeStep st rps = .ok m →
    (∀ rp ∈ rps, 3 ∣ rp.pos.length) →
    (∀ rp ∈ rps, rp.norm.length = rp.pos.length) →
    3 ∣ st.vOffset →
    m.mp = jsWriteTrunc st.mp (rps.map (fun rp => rp.pos)).flatten st.vOffset ∧
    m.mn = jsWriteTrunc st.mn (rps.map (fun rp => rp.norm)).flatten st.vOffset ∧
    m.mi = jsWriteTrunc st.mi (specIndices st.indexBase rps) st.iOffset ∧
    m.mc.length = st.mc.length ∧
    m.mu.length = st.mu.length ∧
    m.mc.take (st.vOffset * 4 / 3) = st.mc.take (st.vOffset * 4 / 3) ∧
    m.mu.take (st.vOffset / 3 * 2) = st.mu.take (st.vOffset / 3 * 2) ∧
    (∀ k, (hk : k < rps.length) →
      (rps.get ⟨k, hk⟩).col.length = 4 * ((rps.get ⟨k, hk⟩).pos.length / 3) →
      ((m.mc.drop (st.vOffset * 4 / 3 + 4 * vcSumR (rps.take k))).take
          (rps.get ⟨k, hk⟩).col.length) = (rps.get ⟨k, hk⟩).col) ∧
    (∀ k, (hk : k < rps.length) →
      (rps.get ⟨k, hk⟩).uv.length = 2 * ((rps.get ⟨k, hk⟩).pos.length / 3) →
      ((m.mu.drop (st.vOffset / 3 * 2 + 2 * vcSumR (rps.take k))).take
          (rps.get ⟨k, hk⟩).uv.length) = (rps.get ⟨k, hk⟩).uv) := by
  induction rps with
  | nil =>
    intro st m h _ _ _
    simp only [List.foldlM_nil] at h
    have hm : st = m := Except.ok.inj h
    subst hm
    refine ⟨?_, ?_, ?_, rfl, rfl, rfl, rfl, ?_, ?_⟩
    · simp [jsWriteTrunc_nil]
    · simp [jsWriteTrunc_nil]
    · simp [specIndices, jsWriteTrunc_nil]
    · intro k hk
      exact absurd hk (by simp)
    · intro k hk
      exact absurd hk (by simp)
  | cons rp t ih =>
    intro st m h h3 hn hv3
    rw [List.foldlM_cons] at h
    cases hstep : mergeStep st rp with
    | error e =>
      rw [hstep] at h
      exact absurd h (by simp only [Bind.bind, Except.bind]; exact fun hh => Except.noConfusion hh)
    | ok st1 =>
      rw [hstep] at h
      simp only [Bind.bind, Except.bind] at h
      obtain ⟨e1, f1, e2, f2, e3, f3, e4, f4, e5, g1, g2, g3⟩ := mergeStep_ok hstep
      have h3p : 3 ∣ rp.pos.length := h3 rp (List.mem_cons_self ..)
      have hnp : rp.norm.length = rp.pos.length := hn rp (List.mem_cons_self ..)
      have hv3' : 3 ∣ st1.vOffset := by rw [g1]; omega
      have iht := ih st1 m h (fun q hq => h3 q (List.mem_cons_of_mem _ hq))
        (fun q hq => hn q (List.mem_cons_of_mem _ hq)) hv3'
      obtain ⟨im1, im2, im3, im4, im5, im6, im7, im8, im9⟩ := iht
      -- arithmetic facts about the advanced offsets
      have hcadv : st1.vOffset * 4 / 3 = st.vOffset * 4 / 3 + 4 * (rp.pos.length / 3) := by
        rw [g1]
        omega
      have huadv : st1.vOffset / 3 * 2 = st.vOffset / 3 * 2 + 2 * (rp.pos.length / 3) := by
        rw [g1]
        omega
      refine ⟨?_, ?_, ?_, ?_, ?_, ?_, ?_, ?_, ?_⟩
      · rw [im1, e1, g1, jsWriteTrunc_comp]
        simp only [List.map_cons, List.flatten_cons]
      · rw [im2, e2, g1, ← hnp, jsWriteTrunc_comp]
        simp only [List.map_cons, List.flatten_cons]
      · rw [im3, e5, g2, g3,
          show st.iOffset + rp.ind.length
              = st.iOffset + (List.map (fun j => (j + st.indexBase) % 65536) rp.ind).length by
            rw [List.length_map],
          jsWriteTrunc_comp]
        simp only [specIndices]
      · rw [im4, e3, jsWriteTrunc_length]
      · rw [im5, e4, jsWriteTrunc_length]
      · have t1 := take_eq_of_take_eq im6 (st.vOffset * 4 / 3) (by rw [hcadv]; omega)
        rw [t1, e3, jsWriteTrunc_take_stable _ _ _ _ (le_refl _)]
      · have t1 := take_eq_of_take_eq im7 (st.vOffset / 3 * 2) (by rw [huadv]; omega)
        rw [t1, e4, jsWriteTrunc_take_stable _ _ _ _ (le_refl _)]
      · intro k hk hcol
        cases k with
        | zero =>
          have hget0 : (rp :: t).get ⟨0, hk⟩ = rp := rfl
          rw [hget0] at hcol ⊢
          have hsl := slice_of_take_eq im6
            (show st.vOffset * 4 / 3 + 4 * vcSumR ((rp :: t).take 0) + rp.col.length
                ≤ st1.vOffset * 4 / 3 by
              simp only [List.take_zero, vcSumR, List.map_nil, List.sum_nil]
              rw [hcadv, hcol]
              omega)
          simp only [List.take_zero, vcSumR, List.map_nil, List.sum_nil, Nat.mul_zero,
            Nat.add_zero] at hsl ⊢
          rw [hsl, e3, jsWriteTrunc_region _ _ _ f3]
        | succ k =>
          have hk' : k < t.length := by simpa using hk
          have hget : (rp :: t).get ⟨k + 1, hk⟩ = t.get ⟨k, hk'⟩ := rfl
          rw [hget] at hcol ⊢
          have htake : vcSumR ((rp :: t).take (k + 1)) =
              rp.pos.length / 3 + vcSumR (t.take k) := by
            simp [vcSumR, List.take_succ_cons]
          rw [htake]
          have := im8 k hk' hcol
          rw [show st.vOffset * 4 / 3 + 4 * (rp.pos.length / 3 + vcSumR (t.take k))
              = st1.vOffset * 4 / 3 + 4 * vcSumR (t.take k) by rw [hcadv]; omega]
          exact this
      · intro k hk huv
        cases k with
        | zero =>
          have hget0 : (rp :: t).get ⟨0, hk⟩ = rp := rfl
          rw [hget0] at huv ⊢
          have hsl := slice_of_take_eq im7
            (show st.vOffset / 3 * 2 + 2 * vcSumR ((rp :: t).take 0) + rp.uv.length
                ≤ st1.vOffset / 3 * 2 by
              simp only [List.take_zero, vcSumR, List.map_nil, List.sum_nil]
              rw [huadv, huv]
              omega)
          simp only [List.take_zero, vcSumR, List.map_nil, List.sum_nil, Nat.mul_zero,
            Nat.add_zero] at hsl ⊢
          rw [hsl, e4, jsWriteTrunc_region _ _ _ f4]
        | succ k =>
          have hk' : k < t.length := by simpa using hk
          have hget : (rp :: t).get ⟨k + 1, hk⟩ = t.get ⟨k, hk'⟩ := rfl
          rw [hget] at huv ⊢
          have htake : vcSumR ((rp :: t).take (k + 1)) =
              rp.pos.length / 3 + vcSumR (t.take k) := by
            simp [vcSumR, List.take_succ_cons]
          rw [htake]
          have := im9 k hk' huv
          rw [show st.vOffset / 3 * 2 + 2 * (rp.pos.length / 3 + vcSumR (t.take k))
              = st1.vOffset / 3 * 2 + 2 * vcSumR (t.take k) by rw [huadv]; omega]
          exact this

theorem specIndices_length (l : List ResolvedPrim) :
    ∀ base, (specIndices base l).length = (l.map fun rp => rp.ind.length).sum := by
  induction l with
  | nil => intro base; rfl
  | cons rp t ih =>
    intro base
    simp only [specIndices, List.length_append, List.length_map, List.map_cons,
      List.sum_cons, ih]

theorem flatten_pos_length (l : List GlbPrim) (h : ∀ p ∈ l, 3 ∣ (primPos p).length) :
    ((l.map primPos).flatten).length = 3 * sumVC l := by
  induction l with
  | nil => rfl
  | cons p t ih =>
    have hp := h p (List.mem_cons_self ..)
    have ht := ih fun q hq => h q (List.mem_cons_of_mem _ hq)
    simp only [List.map_cons, List.flatten_cons, List.length_append, ht, sumVC, List.sum_cons]
    have : (primPos p).length = 3 * primVC p := by
      unfold primVC
      omega
    simp only [sumVC] at *
    omega

theorem flatten_norm_length (l : List GlbPrim)
    (hdiv : ∀ p ∈ l, 3 ∣ (primPos p).length)
    (hn : ∀ p ∈ l, (primNorm p).length = (primPos p).length) :
    ((l.map primNorm).flatten).length = 3 * sumVC l := by
  induction l with
  | nil => rfl
  | cons p t ih =>
    have hp := hdiv p (List.mem_cons_self ..)
    have hnp := hn p (List.mem_cons_self ..)
    have ht := ih (fun q hq => hdiv q (List.mem_cons_of_mem _ hq))
      (fun q hq => hn q (List.mem_cons_of_mem _ hq))
    simp only [List.map_cons, List.flatten_cons, List.length_append, ht, sumVC, List.sum_cons]
    have : (primPos p).length = 3 * primVC p := by
      unfold primVC
      omega
    simp only [sumVC] at *
    omega

theorem vcSumR_map_toResolved (l : List GlbPrim) :
    vcSumR (l.map toResolved) = sumVC l := by
  unfold vcSumR sumVC
  rw [List.map_map]
  rfl

theorem mergePrims_ok_spec (prims : List GlbPrim) (g : GlbGeometry)
    (hdiv : ∀ p ∈ keptPrims prims, 3 ∣ (primPos p).length)
    (hnorm : ∀ p ∈ keptPrims prims, (primNorm p).length = (primPos p).length)
    (hok : mergePrims prims = .ok g) :
    g.positions = ((keptPrims prims).map primPos).flatten ∧
    g.normals = ((keptPrims prims).map primNorm).flatten ∧
    g.indices = specIndices 0 ((keptPrims prims).map toResolved) ∧
    g.colors.length = 4 * sumVC (keptPrims prims) ∧
    g.uvs.length = 2 * sumVC (keptPrims prims) ∧
    g.positions.length = 3 * sumVC (keptPrims prims) ∧
    g.primitives = specSubs 0 (keptPrims prims) ∧
    (∀ k, (hk : k < (keptPrims prims).length) →
      (primCol ((keptPrims prims).get ⟨k, hk⟩)).length
          = 4 * primVC ((keptPrims prims).get ⟨k, hk⟩) →
      (g.colors.drop (4 * sumVC ((keptPrims prims).take k))).take
          (primCol ((keptPrims prims).get ⟨k, hk⟩)).length
        = primCol ((keptPrims prims).get ⟨k, hk⟩)) ∧
    (∀ k, (hk : k < (keptPrims prims).length) →
      (primUv ((keptPrims prims).get ⟨k, hk⟩)).length
          = 2 * primVC ((keptPrims prims).get ⟨k, hk⟩) →
      (g.uvs.drop (2 * sumVC ((keptPrims prims).take k))).take
          (primUv ((keptPrims prims).get ⟨k, hk⟩)).length
        = primUv ((keptPrims prims).get ⟨k, hk⟩)) := by
  unfold mergePrims at hok
  rw [foldl_collect_filter,
    foldl_collect_kept (keptPrims prims)
      (fun p hp => (List.mem_filter.mp hp).2) ⟨[], [], 0, 0⟩] at hok
  simp only [List.nil_append, Nat.zero_add] at hok
  set kept := keptPrims prims with hkept
  set rps := kept.map toResolved with hrps
  set V := sumVC kept with hV
  set I := sumIC kept with hI
  cases hm : List.foldlM mergeStep
      (⟨List.replicate (V * 3) 0, List.replicate (V * 3) 0, List.replicate (V * 4) 0,
        List.replicate (V * 2) 0, List.replicate I 0, 0, 0, 0⟩ : MergeState) rps with
  | error e =>
    rw [hm] at hok
    exact absurd hok (by simp only [Bind.bind, Except.bind]; exact fun hh => Except.noConfusion hh)
  | ok m =>
    rw [hm] at hok
    simp only [Bind.bind, Except.bind] at hok
    have hg := (Except.ok.inj hok).symm
    have hdivR : ∀ rp ∈ rps, 3 ∣ rp.pos.length := by
      intro rp hrp
      obtain ⟨p, hp, hpe⟩ := List.mem_map.mp hrp
      rw [← hpe]
      exact hdiv p hp
    have hnormR : ∀ rp ∈ rps, rp.norm.length = rp.pos.length := by
      intro rp hrp
      obtain ⟨p, hp, hpe⟩ := List.mem_map.mp hrp
      rw [← hpe]
      exact hnorm p hp
    obtain ⟨im1, im2, im3, im4, im5, _, _, im8, im9⟩ :=
      mergeFold_ok rps _ m hm hdivR hnormR (dvd_zero 3)
    dsimp only at im1 im2 im3 im4 im5 im8 im9
    simp only [Nat.zero_mul, Nat.zero_div, Nat.zero_add, Nat.add_zero] at im1 im2 im3 im8 im9
    have hposflat : ((kept.map primPos).flatten).length = 3 * V := flatten_pos_length kept hdiv
    have hnormflat : ((kept.map primNorm).flatten).length = 3 * V :=
      flatten_norm_length kept hdiv hnorm
    have hposeq : (rps.map fun rp => rp.pos).flatten = (kept.map primPos).flatten := by
      rw [hrps, List.map_map]
      rfl
    have hnormeq : (rps.map fun rp => rp.norm).flatten = (kept.map primNorm).flatten := by
      rw [hrps, List.map_map]
      rfl
    have hindlen : (specIndices 0 rps).length = I := by
      rw [specIndices_length, hrps, List.map_map, hI]
      rfl
    refine ⟨?_, ?_, ?_, ?_, ?_, ?_, ?_, ?_, ?_⟩
    · rw [hg]
      dsimp only
      rw [im1, hposeq, jsWriteTrunc_zero_full]
      simp only [List.length_replicate, hposflat]
      omega
    · rw [hg]
      dsimp only
      rw [im2, hnormeq, jsWriteTrunc_zero_full]
      simp only [List.length_replicate, hnormflat]
      omega
    · rw [hg]
      dsimp only
      rw [im3, jsWriteTrunc_zero_full]
      simp only [List.length_replicate, hindlen]
    · rw [hg]
      dsimp only
      rw [im4, List.length_replicate]
      omega
    · rw [hg]
      dsimp only
      rw [im5, List.length_replicate]
      omega
    · rw [hg]
      dsimp only
      rw [im1, jsWriteTrunc_length, List.length_replicate]
      omega
    · rw [hg]
    · intro k hk hcol
      have hkR : k < rps.length := by
        rw [hrps, List.length_map]
        exact hk
      have hgetR : rps.get ⟨k, hkR⟩ = toResolved (kept.get ⟨k, hk⟩) := by
        have h1 : rps[k]? = some (rps.get ⟨k, hkR⟩) := by
          rw [List.getElem?_eq_getElem hkR]
          rfl
        have h2 : rps[k]? = some (toResolved (kept.get ⟨k, hk⟩)) := by
          show (List.map toResolved kept)[k]? = _
          rw [List.getElem?_map, List.getElem?_eq_getElem hk]
          rfl
        exact Option.some.inj (h1.symm.trans h2)
      have := im8 k hkR (by rw [hgetR]; exact hcol)
      simp only [hgetR] at this
      have htk : vcSumR (rps.take k) = sumVC (kept.take k) := by
        rw [hrps, ← List.map_take, vcSumR_map_toResolved]
      rw [htk] at this
      rw [hg]
      dsimp only
      simpa using this
    · intro k hk huv
      have hkR : k < rps.length := by
        rw [hrps, List.length_map]
        exact hk
      have hgetR : rps.get ⟨k, hkR⟩ = toResolved (kept.get ⟨k, hk⟩) := by
        have h1 : rps[k]? = some (rps.get ⟨k, hkR⟩) := by
          rw [List.getElem?_eq_getElem hkR]
          rfl
        have h2 : rps[k]? = some (toResolved (kept.get ⟨k, hk⟩)) := by
          show (List.map toResolved kept)[k]? = _
          rw [List.getElem?_map, List.getElem?_eq_getElem hk]
          rfl
        exact Option.some.inj (h1.symm.trans h2)
      have := im9 k hkR (by rw [hgetR]; exact huv)
      simp only [hgetR] at this
      have htk : vcSumR (rps.take k) = sumVC (kept.take k) := by
        rw [hrps, ← List.map_take, vcSumR_map_toResolved]
      rw [htk] at this
      rw [hg]
      dsimp only
      simpa using this

instance {e a : Type} [DecidableEq e] [DecidableEq a] : DecidableEq (Except e a) := fun x y =>
  match x, y with
  | .ok u, .ok v =>
    if h : u = v then isTrue (by rw [h]) else isFalse (fun hh => h (Except.ok.inj hh))
  | .error u, .error v =>
    if h : u = v then isTrue (by rw [h]) else isFalse (fun hh => h (Except.error.inj hh))
  | .ok _, .error _ => isFalse (fun hh => Except.noConfusion hh)
  | .error _, .ok _ => isFalse (fun hh => Except.noConfusion hh)

/-- C2 (amended form).  For every primitive list whose kept primitives
carry well-formed position/normal arrays (position length a whole number
of vertices; a normal array, when present, of position size), a
successful merge produces: positions and normals that are the
concatenations of the kept primitives' resolved arrays in order, a merged
index array in which each index of the k-th kept primitive appears
increased by the sum of the vertex counts of the kept primitives before
it **reduced modulo 2^16** (the merged array is 16-bit), and one
`SubRange` per kept primitive recording the running index count and the
primitive's index count. -/
theorem parseGlb_merge_structure (prims : List GlbPrim) (g : GlbGeometry)
    (hdiv : ∀ p ∈ keptPrims prims, 3 ∣ (primPos p).length)
    (hnorm : ∀ p ∈ keptPrims prims, (primNorm p).length = (primPos p).length)
    (hok : mergePrims prims = .ok g) :
    g.positions = ((keptPrims prims).map primPos).flatten ∧
    g.normals = ((keptPrims prims).map primNorm).flatten ∧
    g.indices = specIndices 0 ((keptPrims prims).map toResolved) ∧
    g.primitives = specSubs 0 (keptPrims prims) := by
  have h := mergePrims_ok_spec prims g hdiv hnorm hok
  exact ⟨h.1, h.2.1, h.2.2.1, h.2.2.2.2.2.2.1⟩

/-- C2 witness: the merge-structure theorem applied to two concrete
primitives (the second carrying explicit normals). -/
theorem parseGlb_merge_structure_witness :
    mergePrims
      [⟨some [1, 2, 3], none, none, none, some [0, 0, 0], none, none⟩,
       ⟨some [4, 5, 6], some [7, 8, 9], none, none, some [0, 0, 0], none, none⟩] =
      .ok ⟨[1, 2, 3, 4, 5, 6], [0, 0, 0, 7, 8, 9], [0, 0, 0, 1, 1, 1],
        [1, 1, 1, 1, 1, 1, 1, 1], [0, 0, 0, 0], none,
        [⟨0, 3, none, none⟩, ⟨3, 3, none, none⟩]⟩ ∧
    ([1, 2, 3, 4, 5, 6] : List ℚ) =
      ((keptPrims
        [⟨some [1, 2, 3], none, none, none, some [0, 0, 0], none, none⟩,
         ⟨some [4, 5, 6], some [7, 8, 9], none, none, some [0, 0, 0], none, none⟩]).map
          primPos).flatten := by
  have hok : mergePrims
      [⟨some [1, 2, 3], none, none, none, some [0, 0, 0], none, none⟩,
       ⟨some [4, 5, 6], some [7, 8, 9], none, none, some [0, 0, 0], none, none⟩] =
      .ok ⟨[1, 2, 3, 4, 5, 6], [0, 0, 0, 7, 8, 9], [0, 0, 0, 1, 1, 1],
        [1, 1, 1, 1, 1, 1, 1, 1], [0, 0, 0, 0], none,
        [⟨0, 3, none, none⟩, ⟨3, 3, none, none⟩]⟩ := by
    with_unfolding_all decide
  have h := parseGlb_merge_structure _ _
    (by with_unfolding_all decide) (by with_unfolding_all decide) hok
  exact ⟨hok, h.1⟩

/-- C2 counterexample.  Two kept single-vertex primitives, the second
with index value 65535: the claim as stated demands that this index
appear in the merged array increased by exactly 1 (the vertex count of
the first primitive), i.e. as 65536 — but the merged 16-bit array stores
`(65535 + 1) mod 2^16 = 0`. -/
theorem parseGlb_rebase_counterexample :
    (mergePrims
      [⟨some [0, 0, 0], none, none, none, some [0], none, none⟩,
       ⟨some [0, 0, 0], none, none, none, some [65535], none, none⟩]).toOption.map
        (fun g => g.indices) = some [0, 0] ∧
    (0 : Nat) ≠ 65535 + 1 := by
  constructor
  · with_unfolding_all decide
  · decide

/-- C10.  A successful import (of well-formed kept primitives) always
carries a color array of exactly 4 floats per merged vertex and a UV
array of exactly 2 floats per merged vertex; the vertices of a kept
primitive without a COLOR_0 attribute read back as opaque white
(1,1,1,1), and those of a kept primitive without a TEXCOORD_0 attribute
read back as (0,0) — colors and uvs are never absent. -/
theorem parseGlb_default_colors_uvs (prims : List GlbPrim) (g : GlbGeometry)
    (hdiv : ∀ p ∈ keptPrims prims, 3 ∣ (primPos p).length)
    (hnorm : ∀ p ∈ keptPrims prims, (primNorm p).length = (primPos p).length)
    (hok : mergePrims prims = .ok g) :
    g.colors.length = 4 * sumVC (keptPrims prims) ∧
    g.uvs.length = 2 * sumVC (keptPrims prims) ∧
    g.positions.length = 3 * sumVC (keptPrims prims) ∧
    (∀ k, (hk : k < (keptPrims prims).length) →
      ((keptPrims prims).get ⟨k, hk⟩).colors? = none →
      (g.colors.drop (4 * sumVC ((keptPrims prims).take k))).take
          (4 * primVC ((keptPrims prims).get ⟨k, hk⟩))
        = List.replicate (4 * primVC ((keptPrims prims).get ⟨k, hk⟩)) 1) ∧
    (∀ k, (hk : k < (keptPrims prims).length) →
      ((keptPrims prims).get ⟨k, hk⟩).uvs? = none →
      (g.uvs.drop (2 * sumVC ((keptPrims prims).take k))).take
          (2 * primVC ((keptPrims prims).get ⟨k, hk⟩))
        = List.replicate (2 * primVC ((keptPrims prims).get ⟨k, hk⟩)) 0) := by
  have h := mergePrims_ok_spec prims g hdiv hnorm hok
  refine ⟨h.2.2.2.1, h.2.2.2.2.1, h.2.2.2.2.2.1, ?_, ?_⟩
  · intro k hk hnone
    have hcol : primCol ((keptPrims prims).get ⟨k, hk⟩)
        = List.replicate (4 * primVC ((keptPrims prims).get ⟨k, hk⟩)) 1 := by
      unfold primCol
      rw [hnone]
      rw [Nat.mul_comm]
    have hlen : (primCol ((keptPrims prims).get ⟨k, hk⟩)).length
        = 4 * primVC ((keptPrims prims).get ⟨k, hk⟩) := by
      rw [hcol, List.length_replicate]
    have := h.2.2.2.2.2.2.2.1 k hk (by rw [hlen])
    rw [hlen, hcol] at this
    exact this
  · intro k hk hnone
    have huv : primUv ((keptPrims prims).get ⟨k, hk⟩)
        = List.replicate (2 * primVC ((keptPrims prims).get ⟨k, hk⟩)) 0 := by
      unfold primUv
      rw [hnone]
      rw [Nat.mul_comm]
    have hlen : (primUv ((keptPrims prims).get ⟨k, hk⟩)).length
        = 2 * primVC ((keptPrims prims).get ⟨k, hk⟩) := by
      rw [huv, List.length_replicate]
    have := h.2.2.2.2.2.2.2.2 k hk (by rw [hlen])
    rw [hlen, huv] at this
    exact this

/-- C10 witness: a single kept primitive without COLOR_0/TEXCOORD_0
attributes imports with white colors and zero UVs. -/
theorem parseGlb_default_colors_uvs_witness :
    mergePrims [⟨some [1, 2, 3], none, none, none, none, none, none⟩] =
      .ok ⟨[1, 2, 3], [0, 0, 0], [0], [1, 1, 1, 1], [0, 0], none, [⟨0, 1, none, none⟩]⟩ ∧
    ([1, 1, 1, 1] : List ℚ).length =
      4 * sumVC (keptPrims [⟨some [1, 2, 3], none, none, none, none, none, none⟩]) := by
  have hok : mergePrims [⟨some [1, 2, 3], none, none, none, none, none, none⟩] =
      .ok ⟨[1, 2, 3], [0, 0, 0], [0], [1, 1, 1, 1], [0, 0], none, [⟨0, 1, none, none⟩]⟩ := by
    with_unfolding_all decide
  have h := parseGlb_default_colors_uvs _ _
    (by with_unfolding_all decide) (by with_unfolding_all decide) hok
  exact ⟨hok, h.1⟩

/-- Whether the BIN-chunk scan finds a binary-data chunk. -/
def foundBin (bs : List Nat) (off : Nat) : Bool :=
  match findBinChunk bs off with
  | .ok (some _) => true
  | _ => false

theorem parseGlbHeader_isOk_iff (bs : List Nat) :
    (parseGlbHeader bs).isOk = true ↔
      (8 ≤ bs.length ∧ readU32 bs 0 = glbMagic ∧ readU32 bs 4 = 2 ∧
       20 ≤ bs.length ∧ readU32 bs 16 = jsonChunkType ∧
       20 + readU32 bs 12 ≤ bs.length ∧
       foundBin bs (20 + readU32 bs 12) = true) := by
  unfold parseGlbHeader readU32At
  by_cases h1 : 0 + 4 ≤ bs.length
  · rw [if_pos h1]
    dsimp only
    by_cases hm : readU32 bs 0 ≠ glbMagic
    · rw [if_pos hm]
      simp only [Except.isOk, Except.toBool]
      constructor
      · intro h
        exact absurd h (by simp)
      · intro h
        exact absurd h.2.1 hm
    · rw [if_neg hm]
      push_neg at hm
      by_cases h2 : 4 + 4 ≤ bs.length
      · rw [if_pos h2]
        dsimp only
        by_cases hv : readU32 bs 4 ≠ 2
        · rw [if_pos hv]
          simp only [Except.isOk, Except.toBool]
          constructor
          · intro h
            exact absurd h (by simp)
          · intro h
            exact absurd h.2.2.1 hv
        · rw [if_neg hv]
          push_neg at hv
          by_cases h3 : 12 + 4 ≤ bs.length
          · rw [if_pos h3]
            dsimp only
            by_cases h4 : 16 + 4 ≤ bs.length
            · rw [if_pos h4]
              dsimp only
              by_cases hj : readU32 bs 16 ≠ jsonChunkType
              · rw [if_pos hj]
                simp only [Except.isOk, Except.toBool]
                constructor
                · intro h
                  exact absurd h (by simp)
                · intro h
                  exact absurd h.2.2.2.2.1 hj
              · rw [if_neg hj]
                push_neg at hj
                by_cases h5 : 20 + readU32 bs 12 ≤ bs.length
                · rw [if_pos h5]
                  cases hf : findBinChunk bs (20 + readU32 bs 12) with
                  | error e =>
                    simp only [Except.isOk, Except.toBool, foundBin, hf]
                    constructor
                    · intro h
                      exact absurd h (by simp)
                    · intro h
                      exact absurd h.2.2.2.2.2.2 (by simp)
                  | ok ob =>
                    cases ob with
                    | none =>
                      simp only [Except.isOk, Except.toBool, foundBin, hf]
                      constructor
                      · intro h
                        exact absurd h (by simp)
                      · intro h
                        exact absurd h.2.2.2.2.2.2 (by simp)
                    | some bin =>
                      simp only [Except.isOk, Except.toBool, foundBin, hf]
                      constructor
                      · intro _
                        exact ⟨by omega, hm, hv, by omega, hj, h5, trivial⟩
                      · intro _
                        trivial
                · rw [if_neg h5]
                  simp only [Except.isOk, Except.toBool]
                  constructor
                  · intro h
                    exact absurd h (by simp)
                  · intro h
                    exact absurd h.2.2.2.2.2.1 h5
            · rw [if_neg h4]
              simp only [Except.isOk, Except.toBool]
              constructor
              · intro h
                exact absurd h (by simp)
              · intro h
                omega
          · rw [if_neg h3]
            simp only [Except.isOk, Except.toBool]
            constructor
            · intro h
              exact absurd h (by simp)
            · intro h
              omega
      · rw [if_neg h2]
        simp only [Except.isOk, Except.toBool]
        constructor
        · intro h
          exact absurd h (by simp)
        · intro h
          omega
  · rw [if_neg h1]
    simp only [Except.isOk, Except.toBool]
    constructor
    · intro h
      exact absurd h (by simp)
    · intro h
      omega

theorem keptPrims_idem (prims : List GlbPrim) :
    keptPrims (keptPrims prims) = keptPrims prims := by
  unfold keptPrims
  rw [List.filter_filter]
  congr 1
  funext a
  rw [Bool.and_self]

/-- C3 (amended form).  The import succeeds exactly when: the buffer is
long enough for the header reads, the magic matches, the version is 2,
the first chunk type is JSON, the declared JSON chunk fits in the buffer,
the BIN-chunk scan finds a binary-data chunk, the document has a first
mesh with a nonempty primitive list, and the merge itself does not
overflow — and, separately, merging ignores primitives without a POSITION
attribute entirely (they are skipped, never fatal: even a document whose
only primitive lacks positions imports as an empty geometry). -/
theorem parseGlb_error_conditions (bytes : List Nat) (doc : GlbDoc) :
    ((parseGlb bytes doc).isOk = true ↔
      (8 ≤ bytes.length ∧ readU32 bytes 0 = glbMagic ∧ readU32 bytes 4 = 2 ∧
       20 ≤ bytes.length ∧ readU32 bytes 16 = jsonChunkType ∧
       20 + readU32 bytes 12 ≤ bytes.length ∧
       foundBin bytes (20 + readU32 bytes 12) = true ∧
       (∃ mesh, doc.meshes.head? = some mesh ∧ mesh.primitives ≠ [] ∧
         (mergePrims mesh.primitives).isOk = true))) ∧
    (∀ prims : List GlbPrim, mergePrims prims = mergePrims (keptPrims prims)) := by
  constructor
  · cases hh : parseGlbHeader bytes with
    | error e =>
      have hnotok : ¬ ((parseGlbHeader bytes).isOk = true) := by
        rw [hh]
        simp [Except.isOk, Except.toBool]
      unfold parseGlb
      rw [hh]
      simp only [Except.isOk, Except.toBool]
      constructor
      · intro h
        exact absurd h (by simp)
      · intro h
        exact absurd ((parseGlbHeader_isOk_iff bytes).mpr
          ⟨h.1, h.2.1, h.2.2.1, h.2.2.2.1, h.2.2.2.2.1, h.2.2.2.2.2.1,
            h.2.2.2.2.2.2.1⟩) hnotok
    | ok pr =>
      have hok : (parseGlbHeader bytes).isOk = true := by
        rw [hh]
        rfl
      have hconds := (parseGlbHeader_isOk_iff bytes).mp hok
      unfold parseGlb
      rw [hh]
      cases hd : doc.meshes.head? with
      | none =>
        simp only [Except.isOk, Except.toBool]
        constructor
        · intro h
          exact absurd h (by simp)
        · intro h
          obtain ⟨mesh, hm, _, _⟩ := h.2.2.2.2.2.2.2
          exact Option.noConfusion hm
      | some mesh =>
        dsimp only
        by_cases hp : mesh.primitives.isEmpty
        · rw [if_pos hp]
          simp only [Except.isOk, Except.toBool]
          constructor
          · intro h
            exact absurd h (by simp)
          · intro h
            obtain ⟨mesh2, hm, hne, _⟩ := h.2.2.2.2.2.2.2
            have : mesh2 = mesh := (Option.some.inj hm).symm
            subst this
            exact absurd (List.isEmpty_iff.mp hp) hne
        · rw [if_neg hp]
          constructor
          · intro h
            exact ⟨hconds.1, hconds.2.1, hconds.2.2.1, hconds.2.2.2.1, hconds.2.2.2.2.1,
              hconds.2.2.2.2.2.1, hconds.2.2.2.2.2.2,
              ⟨mesh, rfl, fun he => hp (by rw [he]; rfl), h⟩⟩
          · intro h
            obtain ⟨mesh2, hm, _, hmok⟩ := h.2.2.2.2.2.2.2
            have : mesh2 = mesh := (Option.some.inj hm).symm
            subst this
            exact hmok
  · intro prims
    unfold mergePrims
    rw [foldl_collect_filter prims, foldl_collect_filter (keptPrims prims), keptPrims_idem]

/-- C3 witness: a well-formed container and document satisfying every
condition of the characterization imports successfully. -/
theorem parseGlb_error_conditions_witness :
    (parseGlb
      (u32LE glbMagic ++ u32LE 2 ++ u32LE 28 ++ u32LE 0 ++ u32LE jsonChunkType ++
        u32LE 0 ++ u32LE binChunkType)
      ⟨[⟨[⟨some [0, 0, 0], none, none, none, none, none, none⟩]⟩]⟩).isOk = true := by
  apply (parseGlb_error_conditions
    (u32LE glbMagic ++ u32LE 2 ++ u32LE 28 ++ u32LE 0 ++ u32LE jsonChunkType ++
      u32LE 0 ++ u32LE binChunkType)
    ⟨[⟨[⟨some [0, 0, 0], none, none, none, none, none, none⟩]⟩]⟩).1.mpr
  refine ⟨by decide, by decide, by decide, by decide, by decide, by decide,
    by with_unfolding_all decide, ⟨_, rfl, by decide, by with_unfolding_all decide⟩⟩

/-- C3 counterexample.  A container whose only primitive lacks a POSITION
attribute: the claim says the whole import fails, but the importer skips
the primitive and succeeds, returning an empty geometry. -/
theorem parseGlb_skip_only_counterexample :
    (parseGlb
      (u32LE glbMagic ++ u32LE 2 ++ u32LE 28 ++ u32LE 0 ++ u32LE jsonChunkType ++
        u32LE 0 ++ u32LE binChunkType)
      ⟨[⟨[⟨none, none, none, none, none, none, none⟩]⟩]⟩).toOption.map
        (fun g => g.positions) = some [] := by
  with_unfolding_all decide

/-! ## Geographic converter (plyParser.ts, `parseGeoJsonToShapes`)

`JSON.parse` of the GeoJSON text is abstracted: the converter takes the
list of features with the fields the source reads (`geometry.type`,
`geometry.coordinates`, `properties.type`).  The resolved tree/rock/grass
models (`getModel`, which defers to `parseGlb`/`parseObj`/stock builders)
are abstracted as geometry arguments.  `Math.random` is an explicit
stream `rand : ℕ → ℚ` consumed at an explicit counter; `Math.sin`,
`Math.cos` and `Math.PI` are the parameters `sinQ`, `cosQ`, `piQ` (the
theorems do not depend on their values). -/

structure GeoGeometry where
  positions : List ℚ
  normals : List ℚ
  indices : List Nat
  uvs : List ℚ
  texture : Option String
deriving DecidableEq

structure GeoShape where
  geometry : GeoGeometry
  translation : ℚ × ℚ × ℚ
  rotation : Option (ℚ × ℚ × ℚ × ℚ)
  scale : Option (ℚ × ℚ × ℚ)
  color : Option (ℚ × ℚ × ℚ × ℚ)
deriving DecidableEq

structure GeoFeature where
  geomType : String
  coordinates : List (List (ℚ × ℚ))
  ftype : Option String
deriving DecidableEq

inductive GeoError where
  | noAsset
  | typeErr
  | nonFinite
deriving DecidableEq

/-- `triangulate` from plyParser.ts: fan triangulation from the first
ring vertex. -/
def triangulate (polygon : List (ℚ × ℚ)) : List Nat :=
  if polygon.length < 3 then []
  else ((List.range (polygon.length - 2)).map fun k => [0, k + 1, k + 2]).flatten

/-- `getCentroid`: vertex average. -/
def getCentroid (polygon : List (ℚ × ℚ)) : ℚ × ℚ :=
  if polygon.length = 0 then (0, 0)
  else ((polygon.map Prod.fst).sum / polygon.length, (polygon.map Prod.snd).sum / polygon.length)

/-- `getRandomPointInTriangle`: square-root barycentric sampling from two
uniform samples. -/
def getRandomPointInTriangle (r1 r2 : ℚ) (p1 p2 p3 : ℚ × ℚ) : ℚ × ℚ :=
  let sqrtR1 := ratSqrt r1
  let A := 1 - sqrtR1
  let B := sqrtR1 * (1 - r2)
  let C := sqrtR1 * r2
  (A * p1.1 + B * p2.1 + C * p3.1, A * p1.2 + B * p2.2 + C * p3.2)

/-- Triangle area by the 2D cross-product formula
(`0.5 * |x1(z2-z3) + x2(z3-z1) + x3(z1-z2)|`). -/
def triArea2D (p1 p2 p3 : ℚ × ℚ) : ℚ :=
  1 / 2 * |p1.1 * (p2.2 - p3.2) + p2.1 * (p3.2 - p1.2) + p3.1 * (p1.2 - p2.2)|

/-- The ground-cover density constant (`density = 2.0`). -/
def grassDensity : ℚ := 2

/-- The scatter loop body for one terrain triangle (plyParser.ts lines
373–396): `floor(area × density)` instances, each at a barycentric random
point, with a random yaw rotation and a uniform scale in [0.8, 1.2].
Returns the new shapes and the advanced random-stream counter. -/
def scatterTriangle (sinQ cosQ : ℚ → ℚ) (piQ : ℚ) (rand : ℕ → ℚ)
    (grassModel : GeoGeometry) (yLevel : ℚ) (p1 p2 p3 : ℚ × ℚ) (ctr : ℕ) :
    List GeoShape × ℕ :=
  let area := triArea2D p1 p2 p3
  let count := (Int.floor (area * grassDensity)).toNat
  (((List.range count).map fun k =>
    let r1 := rand (ctr + 4 * k)
    let r2 := rand (ctr + 4 * k + 1)
    let pt := getRandomPointInTriangle r1 r2 p1 p2 p3
    let angle := rand (ctr + 4 * k + 2) * piQ * 2
    let scaleVar := 4 / 5 + rand (ctr + 4 * k + 3) * (2 / 5)
    { geometry := grassModel
      translation := (pt.1, yLevel, pt.2)
      rotation := some (0, sinQ (angle / 2), 0, cosQ (angle / 2))
      scale := some (scaleVar, scaleVar, scaleVar)
      color := some (1, 1, 1, 1) }), ctr + 4 * count)

/-- The `for (i = 0; i < indices.length; i += 3)` scatter loop over every
terrain triangle (terrain indices are always a whole number of
triangles). -/
def scatterAll (sinQ cosQ : ℚ → ℚ) (piQ : ℚ) (rand : ℕ → ℚ)
    (grassModel : GeoGeometry) (yLevel : ℚ) (positions : List ℚ) :
    List Nat → ℕ → List GeoShape × ℕ
  | i1 :: i2 :: i3 :: rest, ctr =>
    let p1 : ℚ × ℚ := (positions.getD (i1 * 3) 0, positions.getD (i1 * 3 + 2) 0)
    let p2 : ℚ × ℚ := (positions.getD (i2 * 3) 0, positions.getD (i2 * 3 + 2) 0)
    let p3 : ℚ × ℚ := (positions.getD (i3 * 3) 0, positions.getD (i3 * 3 + 2) 0)
    let sc := scatterTriangle sinQ cosQ piQ rand grassModel yLevel p1 p2 p3 ctr
    let more := scatterAll sinQ cosQ piQ rand grassModel yLevel positions rest sc.2
    (sc.1 ++ more.1, more.2)
  | _, ctr => ([], ctr)

/-- The terrain geometry built for one projected polygon (positions with
the tag's height, straight-up normals, planar UVs, fan indices). -/
def terrainGeometry (projected : List (ℚ × ℚ)) (yLevel uvScale : ℚ)
    (texture : Option String) : GeoGeometry :=
  { positions := (projected.map fun p => [p.1, yLevel, p.2]).flatten
    normals := (projected.map fun _ => [(0 : ℚ), 1, 0]).flatten
    indices := triangulate projected
    uvs := (projected.map fun p => [p.1 * uvScale, p.2 * uvScale]).flatten
    texture := texture }

/-- The grass texture data URI (stockModels.ts), kept opaque. -/
def grassTextureUri : String := "GRASS_TEXTURE"
/-- The water texture data URI (stockModels.ts), kept opaque. -/
def waterTextureUri : String := "WATER_TEXTURE"

/-- One feature of the main loop (plyParser.ts lines 279–400): skip
non-polygons, object features (`tree`/`rock`) placed at the centroid,
recognized terrain tags built as terrain (with the tag's height/color/
texture table), unknown tags skipped, and ground-cover scattering when a
custom grass model is supplied.  State: accumulated shapes and the
random-stream counter. -/
def processFeature (sinQ cosQ : ℚ → ℚ) (piQ : ℚ) (rand : ℕ → ℚ)
    (treeModel rockModel : GeoGeometry) (grassModel? : Option GeoGeometry)
    (project : ℚ × ℚ → ℚ × ℚ) (st : List GeoShape × ℕ) (f : GeoFeature) :
    Except GeoError (List GeoShape × ℕ) :=
  if f.geomType ≠ "Polygon" then .ok st
  else
    match f.coordinates.head? with
    | none => .error .typeErr
    | some ring =>
      let projectedPolygon := ring.map project
      if f.ftype = some "tree" ∨ f.ftype = some "rock" then
        let centroid := getCentroid projectedPolygon
        .ok (st.1 ++ [{ geometry := if f.ftype = some "tree" then treeModel else rockModel
                        translation := (centroid.1, 0, centroid.2)
                        rotation := none, scale := none, color := none }], st.2)
      else
        let params? : Option (ℚ × (ℚ × ℚ × ℚ × ℚ) × Option String × ℚ) :=
          if f.ftype = some "asset" then some (0, (4/5, 4/5, 4/5, 1), none, 1)
          else if f.ftype = some "grass" then
            some (1/100, (3/10, 3/5, 3/10, 1), some grassTextureUri, 1/2)
          else if f.ftype = some "river" then
            some (1/200, (1, 1, 1, 1), some waterTextureUri, 1/2)
          else none
        match params? with
        | none => .ok st
        | some (yLevel, color, texture, uvScale) =>
          let geometry := terrainGeometry projectedPolygon yLevel uvScale texture
          let st1 : List GeoShape × ℕ :=
            (st.1 ++ [{ geometry := geometry, translation := (0, 0, 0),
                        rotation := none, scale := none, color := some color }], st.2)
          match grassModel? with
          | some gm =>
            if f.ftype = some "grass" then
              let sc := scatterAll sinQ cosQ piQ rand gm yLevel geometry.positions
                geometry.indices st1.2
              .ok (st1.1 ++ sc.1, sc.2)
            else .ok st1
          | none => .ok st1

/-- The `parseGeoJsonToShapes` entry point (plyParser.ts lines 233–402).
An empty asset ring would drive the JS bounding-box fold to non-finite
values; that continuation is outside ℚ and is mapped to a distinguished
error — no theorem depends on that branch. -/
def parseGeoJsonToShapes (sinQ cosQ : ℚ → ℚ) (piQ : ℚ) (rand : ℕ → ℚ)
    (treeModel rockModel : GeoGeometry) (grassModel? : Option GeoGeometry)
    (features : List GeoFeature) : Except GeoError (List GeoShape) :=
  match features.find? (fun f => f.ftype = some "asset") with
  | none => .error .noAsset
  | some assetFeature =>
    match assetFeature.coordinates.head? with
    | none => .error .typeErr
    | some assetCoords =>
      match assetCoords with
      | [] => .error .nonFinite
      | c :: cs =>
        let minLon := (cs.map Prod.fst).foldl min c.1
        let maxLon := (cs.map Prod.fst).foldl max c.1
        let minLat := (cs.map Prod.snd).foldl min c.2
        let maxLat := (cs.map Prod.snd).foldl max c.2
        let centerLon := (minLon + maxLon) / 2
        let centerLat := (minLat + maxLat) / 2
        let maxRange := max (maxLon - minLon) (maxLat - minLat)
        let scale := if 0 < maxRange then 20 / maxRange else 1000
        let project : ℚ × ℚ → ℚ × ℚ := fun q =>
          ((q.1 - centerLon) * scale, (q.2 - centerLat) * scale * (-1))
        (features.foldlM
          (processFeature sinQ cosQ piQ rand treeModel rockModel grassModel? project)
          ([], 0)).map Prod.fst

theorem processFeature_error_eq (sinQ cosQ : ℚ → ℚ) (piQ : ℚ) (rand : ℕ → ℚ)
    (treeModel rockModel : GeoGeometry) (grassModel? : Option GeoGeometry)
    (project : ℚ × ℚ → ℚ × ℚ) (st : List GeoShape × ℕ) (f : GeoFeature)
    (e : GeoError)
    (h : processFeature sinQ cosQ piQ rand treeModel rockModel grassModel? project st f
        = .error e) : e = .typeErr := by
  unfold processFeature at h
  repeat' split at h
  all_goals simp_all

theorem foldlM_processFeature_not_noAsset (sinQ cosQ : ℚ → ℚ) (piQ : ℚ)
    (rand : ℕ → ℚ) (treeModel rockModel : GeoGeometry)
    (grassModel? : Option GeoGeometry) (project : ℚ × ℚ → ℚ × ℚ)
    (fs : List GeoFeature) (st : List GeoShape × ℕ) :
    fs.foldlM (processFeature sinQ cosQ piQ rand treeModel rockModel grassModel? project) st
      ≠ Except.error GeoError.noAsset := by
  induction fs generalizing st with
  | nil => simp [List.foldlM, pure, Except.pure]
  | cons f fs ih =>
    intro h
    rw [List.foldlM_cons] at h
    cases hp : processFeature sinQ cosQ piQ rand treeModel rockModel grassModel? project st f with
    | error e =>
      rw [hp] at h
      simp only [Bind.bind, Except.bind] at h
      cases processFeature_error_eq sinQ cosQ piQ rand treeModel rockModel grassModel?
        project st f e hp
      exact absurd (Except.error.inj h) (by simp)
    | ok st1 =>
      rw [hp] at h
      simp only [Bind.bind, Except.bind] at h
      exact ih st1 h

theorem except_map_ne_error {α β ε : Type} (g : α → β) (x : Except ε α) (e : ε)
    (hx : x ≠ .error e) : x.map g ≠ .error e := by
  cases x with
  | error e2 =>
    intro h
    simp only [Except.map] at h
    exact hx (by rw [Except.error.inj h])
  | ok v => simp [Except.map]

/-- C6: the geographic converter fails with the missing-asset error exactly
when no feature is tagged `asset`; with an `asset` feature present that
error never occurs. -/
theorem geo_asset_required (sinQ cosQ : ℚ → ℚ) (piQ : ℚ) (rand : ℕ → ℚ)
    (treeModel rockModel : GeoGeometry) (grassModel? : Option GeoGeometry)
    (features : List GeoFeature) :
    (parseGeoJsonToShapes sinQ cosQ piQ rand treeModel rockModel grassModel? features
        = Except.error GeoError.noAsset)
      ↔ ∀ f ∈ features, f.ftype ≠ some "asset" := by
  unfold parseGeoJsonToShapes
  cases hfind : features.find? (fun f => f.ftype = some "asset") with
  | none =>
    simp only [hfind]
    constructor
    · intro _ f hf hty
      have hnp := List.find?_eq_none.mp hfind f hf
      simp [hty] at hnp
    · intro _; trivial
  | some af =>
    simp only [hfind]
    constructor
    · intro h
      exfalso
      cases hc : af.coordinates.head? with
      | none =>
        simp only [hc] at h
        exact absurd (Except.error.inj h) (by simp)
      | some ring =>
        simp only [hc] at h
        cases ring with
        | nil => exact absurd (Except.error.inj h) (by simp)
        | cons c cs =>
          exact except_map_ne_error _ _ _
            (foldlM_processFeature_not_noAsset _ _ _ _ _ _ _ _ _ _) h
    · intro hall
      exfalso
      have hmem := List.mem_of_find?_eq_some hfind
      have hp := List.find?_some hfind
      simp only [decide_eq_true_eq] at hp
      exact hall af hmem hp

theorem ratSqrt_nonneg (q : ℚ) : 0 ≤ ratSqrt q := by
  unfold ratSqrt
  exact div_nonneg (Nat.cast_nonneg _) (Nat.cast_nonneg _)

theorem ratSqrt_le_one (q : ℚ) (h0 : 0 ≤ q) (h1 : q ≤ 1) : ratSqrt q ≤ 1 := by
  unfold ratSqrt
  have hden : 0 < q.den := q.pos
  have hnum0 : 0 ≤ q.num := Rat.num_nonneg.mpr h0
  have hnumden : q.num ≤ (q.den : ℤ) := by
    have hq : (q.num : ℚ) = q * (q.den : ℚ) := by
      have hc : ((q.num : ℚ) / (q.den : ℚ)) * (q.den : ℚ) = (q.num : ℚ) :=
        div_mul_cancel₀ _ (by positivity)
      rw [Rat.num_div_den q] at hc
      exact hc.symm
    have hle : (q.num : ℚ) ≤ (q.den : ℚ) := by
      rw [hq]
      calc q * (q.den : ℚ) ≤ 1 * (q.den : ℚ) := by
            exact mul_le_mul_of_nonneg_right h1 (by positivity)
        _ = (q.den : ℚ) := one_mul _
    exact_mod_cast hle
  have hnat : q.num.toNat ≤ q.den := by omega
  have hsq : Nat.sqrt q.num.toNat ≤ Nat.sqrt q.den := Nat.sqrt_le_sqrt hnat
  have hsd : 0 < Nat.sqrt q.den := Nat.sqrt_pos.mpr hden
  rw [div_le_one (by exact_mod_cast hsd)]
  exact_mod_cast hsq

/-- C7: with a custom ground-cover model, a terrain triangle of 2D area A
receives exactly `floor(A * 2.0)` scattered instances; each instance's
(x, z) translation is a convex combination of the triangle's corners
(square-root barycentric transform of two uniform samples), its rotation
is yaw-only, and its scale components lie in [0.8, 1.2]; a triangle of
area 2.0 receives exactly 4 instances. -/
theorem geo_grass_scatter (sinQ cosQ : ℚ → ℚ) (piQ : ℚ) (rand : ℕ → ℚ)
    (grassModel : GeoGeometry) (yLevel : ℚ) (p1 p2 p3 : ℚ × ℚ) (ctr : ℕ)
    (hrand : ∀ n, 0 ≤ rand n ∧ rand n ≤ 1) :
    (scatterTriangle sinQ cosQ piQ rand grassModel yLevel p1 p2 p3 ctr).1.length
        = (Int.floor (triArea2D p1 p2 p3 * 2)).toNat
    ∧ (∀ sh ∈ (scatterTriangle sinQ cosQ piQ rand grassModel yLevel p1 p2 p3 ctr).1,
        (∃ A B C : ℚ, 0 ≤ A ∧ 0 ≤ B ∧ 0 ≤ C ∧ A + B + C = 1 ∧
          sh.translation = (A * p1.1 + B * p2.1 + C * p3.1, yLevel,
                            A * p1.2 + B * p2.2 + C * p3.2))
        ∧ (∃ sy cy : ℚ, sh.rotation = some (0, sy, 0, cy))
        ∧ (∃ v : ℚ, sh.scale = some (v, v, v) ∧ 4 / 5 ≤ v ∧ v ≤ 6 / 5))
    ∧ (scatterTriangle sinQ cosQ piQ rand grassModel yLevel
        (0, 0) (2, 0) (0, 2) ctr).1.length = 4 := by
  have hlen : ∀ q1 q2 q3 : ℚ × ℚ,
      (scatterTriangle sinQ cosQ piQ rand grassModel yLevel q1 q2 q3 ctr).1.length
        = (Int.floor (triArea2D q1 q2 q3 * grassDensity)).toNat := by
    intro q1 q2 q3
    unfold scatterTriangle
    simp
  refine ⟨hlen p1 p2 p3, ?_, ?_⟩
  · intro sh hsh
    unfold scatterTriangle at hsh
    simp only [List.mem_map, List.mem_range] at hsh
    obtain ⟨k, _, rfl⟩ := hsh
    have hr1 := hrand (ctr + 4 * k)
    have hr2 := hrand (ctr + 4 * k + 1)
    have hsc := hrand (ctr + 4 * k + 3)
    have hs0 : 0 ≤ ratSqrt (rand (ctr + 4 * k)) := ratSqrt_nonneg _
    have hs1 : ratSqrt (rand (ctr + 4 * k)) ≤ 1 := ratSqrt_le_one _ hr1.1 hr1.2
    refine ⟨⟨1 - ratSqrt (rand (ctr + 4 * k)),
      ratSqrt (rand (ctr + 4 * k)) * (1 - rand (ctr + 4 * k + 1)),
      ratSqrt (rand (ctr + 4 * k)) * rand (ctr + 4 * k + 1),
      by linarith, ?_, ?_, by ring, ?_⟩, ⟨_, _, rfl⟩,
      ⟨4 / 5 + rand (ctr + 4 * k + 3) * (2 / 5), rfl, ?_, ?_⟩⟩
    · exact mul_nonneg hs0 (by linarith [hr2.2])
    · exact mul_nonneg hs0 hr2.1
    · simp [getRandomPointInTriangle]
    · nlinarith [hsc.1]
    · nlinarith [hsc.2]
  · rw [hlen]
    have harea : triArea2D (0, 0) (2, 0) (0, 2) * grassDensity = ((4 : ℤ) : ℚ) := by
      norm_num [triArea2D, grassDensity]
    rw [harea, Int.floor_intCast]
    rfl

/-- C7 witness: the scatter theorem applied to the constant stream 1/2 on
the area-2 triangle (0,0),(2,0),(0,2). -/
theorem geo_grass_scatter_witness :
    (∀ n : ℕ, 0 ≤ (fun _ : ℕ => (1 : ℚ) / 2) n ∧ (fun _ : ℕ => (1 : ℚ) / 2) n ≤ 1)
    ∧ (scatterTriangle (fun _ => 0) (fun _ => 1) 3 (fun _ : ℕ => (1 : ℚ) / 2)
        ⟨[], [], [], [], none⟩ 0 (0, 0) (2, 0) (0, 2) 0).1.length = 4 :=
  ⟨fun _ => by norm_num,
    (geo_grass_scatter (fun _ => 0) (fun _ => 1) 3 (fun _ : ℕ => (1 : ℚ) / 2)
      ⟨[], [], [], [], none⟩ 0 (0, 0) (2, 0) (0, 2) 0
      (fun _ => by norm_num)).2.2⟩

/-! ## glTF document builder (gltfBuilder.ts, `generateGltfParts`)

The builder-side `Shape`/`Geometry` records carry JS numbers as ℚ and
typed arrays as lists.  The combined binary buffer's bytes are not
re-modelled here (the GLB framing above takes arbitrary chunk bytes);
the structural output — buffer views, accessors, materials, textures,
images, meshes, nodes — is.  Display-only strings built with template
literals or `JSON.stringify` (material/texture `name` fields) are not
carried; the `JSON.stringify(c)` material key is modelled by the color
quadruple itself (`MatKey.flat`), stringification being injective on
lists of JS numbers.  The constant default sampler list is omitted. -/

structure BSubPrim where
  indicesOffset : Nat
  indicesCount : Nat
  texture : Option String
  color : Option (List ℚ)
deriving DecidableEq

structure BGeometry where
  positions : List ℚ
  normals : List ℚ
  indices : List Nat
  colors : Option (List ℚ)
  uvs : Option (List ℚ)
  texture : Option String
  primitives : Option (List BSubPrim)
deriving DecidableEq

structure BShape where
  geometry : BGeometry
  translation : ℚ × ℚ × ℚ
  rotation : Option (ℚ × ℚ × ℚ × ℚ)
  scale : Option (ℚ × ℚ × ℚ)
  color : Option (List ℚ)
deriving DecidableEq

structure GBufferView where
  byteOffset : Nat
  byteLength : Nat
  target : Nat
deriving DecidableEq

/-- glTF accessor; `minMax` is `some` only on position accessors of a
nonempty position array (the JS ±Infinity fold start never escapes on a
nonempty array). -/
structure GAccessor where
  bufferView : Nat
  byteOffset : Nat
  componentType : Nat
  count : Nat
  type : String
  minMax : Option ((ℚ × ℚ × ℚ) × (ℚ × ℚ × ℚ))
deriving DecidableEq

inductive MatKey where
  | tex (i : Nat)
  | vertexColors
  | flat (c : List ℚ)
deriving DecidableEq

structure GMaterial where
  baseColorFactor : List ℚ
  baseColorTexture : Option Nat
  metallicFactor : Option ℚ
  roughnessFactor : Option ℚ
  alphaMode : Option String
  alphaCutoff : Option ℚ
deriving DecidableEq

structure GPrimitive where
  position : Nat
  normal : Nat
  color0 : Option Nat
  texcoord0 : Option Nat
  indices : Nat
  material : Nat
deriving DecidableEq

structure GNode where
  mesh : Nat
  translation : ℚ × ℚ × ℚ
  rotation : Option (ℚ × ℚ × ℚ × ℚ)
  scale : Option (ℚ × ℚ × ℚ)
deriving DecidableEq

/-- `Map.has`/`Map.get` over the insertion-ordered material map. -/
def mkFind : List (MatKey × Nat) → MatKey → Option Nat
  | [], _ => none
  | p :: rest, k => if p.1 = k then some p.2 else mkFind rest k

/-- `Map.has`/`Map.get` over the insertion-ordered texture map. -/
def sFind : List (String × Nat) → String → Option Nat
  | [], _ => none
  | p :: rest, k => if p.1 = k then some p.2 else sFind rest k

/-- The per-shape min/max fold over position triples (accessor bounds);
`none` for an empty array, where the JS ±Infinity sentinels survive. -/
def posMinMax : List ℚ → Option ((ℚ × ℚ × ℚ) × (ℚ × ℚ × ℚ))
  | x :: y :: z :: rest =>
    match posMinMax rest with
    | none => some ((x, y, z), (x, y, z))
    | some ((a, b, c), (d, e, f)) =>
      some ((min x a, min y b, min z c), (max x d, max y e, max z f))
  | _ => none

structure GBState where
  accessors : List GAccessor
  materials : List GMaterial
  textures : List Nat
  images : List String
  materialMap : List (MatKey × Nat)
  textureMap : List (String × Nat)
  meshes : List (List GPrimitive)
  nodes : List GNode
  pOff : Nat
  nOff : Nat
  cOff : Nat
  uvOff : Nat
  iOff : Nat

def defaultColor4 : List ℚ := [4/5, 4/5, 4/5, 1]

/-- `getMaterialIndex`, flat-color arm (`color || shape.color || defaultColor`,
keyed by the color quadruple). -/
def getMaterialIndexFlat (color? shapeColor : Option (List ℚ)) (st : GBState) :
    Nat × GBState :=
  let c := color?.getD (shapeColor.getD defaultColor4)
  match mkFind st.materialMap (MatKey.flat c) with
  | some i => (i, st)
  | none =>
    let mIdx := st.materials.length
    let m : GMaterial :=
      { baseColorFactor := c
        baseColorTexture := none
        metallicFactor := none
        roughnessFactor := none
        alphaMode := none
        alphaCutoff := none }
    (mIdx, { st with
             materials := st.materials ++ [m]
             materialMap := st.materialMap ++ [(MatKey.flat c, mIdx)] })

/-- `getMaterialIndex` after a falsy `tex`: vertex-color material when the
shape has a nonempty color array, else flat color. -/
def getMaterialIndexNoTex (color? colors? : Option (List ℚ)) (isV4Colors : Bool)
    (shapeColor : Option (List ℚ)) (st : GBState) : Nat × GBState :=
  match colors? with
  | some cs =>
    if cs.length > 0 then
      match mkFind st.materialMap MatKey.vertexColors with
      | some i => (i, st)
      | none =>
        let mIdx := st.materials.length
        let m : GMaterial :=
          { baseColorFactor := [1, 1, 1, 1]
            baseColorTexture := none
            metallicFactor := none
            roughnessFactor := none
            alphaMode := some (if isV4Colors then "BLEND" else "OPAQUE")
            alphaCutoff := none }
        (mIdx, { st with
                 materials := st.materials ++ [m]
                 materialMap := st.materialMap ++ [(MatKey.vertexColors, mIdx)] })
    else getMaterialIndexFlat color? shapeColor st
  | none => getMaterialIndexFlat color? shapeColor st

/-- `getMaterialIndex` (gltfBuilder.ts lines 158–219); the empty string is
falsy in JS, so it falls through to the non-texture arms. -/
def getMaterialIndex (tex? : Option String) (color? colors? : Option (List ℚ))
    (isV4Colors : Bool) (shapeColor : Option (List ℚ)) (st : GBState) :
    Nat × GBState :=
  match tex? with
  | some tex =>
    if tex = "" then getMaterialIndexNoTex color? colors? isV4Colors shapeColor st
    else
      let texPair :=
        match sFind st.textureMap tex with
        | some i => (i, st)
        | none =>
          let imageIdx := st.images.length
          let texIdx := st.textures.length
          (texIdx, { st with
                     images := st.images ++ [tex]
                     textures := st.textures ++ [imageIdx]
                     textureMap := st.textureMap ++ [(tex, texIdx)] })
      let textureIndex := texPair.1
      let stA := texPair.2
      match mkFind stA.materialMap (MatKey.tex textureIndex) with
      | some i => (i, stA)
      | none =>
        let mIdx := stA.materials.length
        let m : GMaterial :=
          { baseColorFactor := color?.getD [1, 1, 1, 1]
            baseColorTexture := some textureIndex
            metallicFactor := some 0
            roughnessFactor := some 1
            alphaMode := some "MASK"
            alphaCutoff := some (1 / 2) }
        (mIdx, { stA with
                 materials := stA.materials ++ [m]
                 materialMap := stA.materialMap ++ [(MatKey.tex textureIndex, mIdx)] })
  | none => getMaterialIndexNoTex color? colors? isV4Colors shapeColor st

/-- One iteration of the per-shape loop (gltfBuilder.ts lines 114–292):
position/normal (and optional color/uv) accessors, material lookup, index
accessor(s), mesh primitives, node, and the element-offset update.
`isV4Colors` renders the exact float test `colors.length / numVertices
=== 4` (false on an empty position array, where the division is not
finite). -/
def shapeStep (uvViewIdx : Option Nat) (indexViewIdx : Nat) (st : GBState)
    (shape : BShape) : GBState :=
  let g := shape.geometry
  let isV4Colors : Bool :=
    match g.colors with
    | some cs => g.positions.length ≠ 0 ∧ 3 * cs.length = 4 * g.positions.length
    | none => false
  let posAccessorIdx := st.accessors.length
  let accP : GAccessor :=
    { bufferView := 0
      byteOffset := 4 * st.pOff
      componentType := 5126
      count := g.positions.length / 3
      type := "VEC3"
      minMax := posMinMax g.positions }
  let acc1 := st.accessors ++ [accP]
  let normAccessorIdx := acc1.length
  let accN : GAccessor :=
    { bufferView := 1
      byteOffset := 4 * st.nOff
      componentType := 5126
      count := g.normals.length / 3
      type := "VEC3"
      minMax := none }
  let acc2 := acc1 ++ [accN]
  let colorStep : Option Nat × List GAccessor :=
    match g.colors with
    | some cs =>
      if cs.length > 0 then
        let accC : GAccessor :=
          { bufferView := 2
            byteOffset := 4 * st.cOff
            componentType := 5126
            count := cs.length / (if isV4Colors then 4 else 3)
            type := if isV4Colors then "VEC4" else "VEC3"
            minMax := none }
        (some acc2.length, acc2 ++ [accC])
      else (none, acc2)
    | none => (none, acc2)
  let colorAccessorIdx := colorStep.1
  let acc3 := colorStep.2
  let uvStep : Option Nat × List GAccessor :=
    match g.uvs, uvViewIdx with
    | some uv, some vIdx =>
      if uv.length > 0 then
        let accU : GAccessor :=
          { bufferView := vIdx
            byteOffset := 4 * st.uvOff
            componentType := 5126
            count := uv.length / 2
            type := "VEC2"
            minMax := none }
        (some acc3.length, acc3 ++ [accU])
      else (none, acc3)
    | _, _ => (none, acc3)
  let uvAccessorIdx := uvStep.1
  let acc4 := uvStep.2
  let st1 := { st with accessors := acc4 }
  let primState : List GPrimitive × GBState :=
    match g.primitives with
    | some prims =>
      if prims.length > 0 then
        prims.foldl (fun acc prim =>
          let matState := getMaterialIndex prim.texture prim.color g.colors
            isV4Colors shape.color acc.2
          let primIndicesAccessorIdx := matState.2.accessors.length
          let accI : GAccessor :=
            { bufferView := indexViewIdx
              byteOffset := 2 * (st.iOff + prim.indicesOffset)
              componentType := 5123
              count := prim.indicesCount
              type := "SCALAR"
              minMax := none }
          let p : GPrimitive :=
            { position := posAccessorIdx
              normal := normAccessorIdx
              color0 := colorAccessorIdx
              texcoord0 := uvAccessorIdx
              indices := primIndicesAccessorIdx
              material := matState.1 }
          (acc.1 ++ [p],
            { matState.2 with accessors := matState.2.accessors ++ [accI] })) ([], st1)
      else
        let matState := getMaterialIndex g.texture none g.colors isV4Colors
          shape.color st1
        let indexAccessorIdx := matState.2.accessors.length
        let accI : GAccessor :=
          { bufferView := indexViewIdx
            byteOffset := 2 * st.iOff
            componentType := 5123
            count := g.indices.length
            type := "SCALAR"
            minMax := none }
        let p : GPrimitive :=
          { position := posAccessorIdx
            normal := normAccessorIdx
            color0 := colorAccessorIdx
            texcoord0 := uvAccessorIdx
            indices := indexAccessorIdx
            material := matState.1 }
        ([p], { matState.2 with accessors := matState.2.accessors ++ [accI] })
    | none =>
      let matState := getMaterialIndex g.texture none g.colors isV4Colors
        shape.color st1
      let indexAccessorIdx := matState.2.accessors.length
      let accI : GAccessor :=
        { bufferView := indexViewIdx
          byteOffset := 2 * st.iOff
          componentType := 5123
          count := g.indices.length
          type := "SCALAR"
          minMax := none }
      let p : GPrimitive :=
        { position := posAccessorIdx
          normal := normAccessorIdx
          color0 := colorAccessorIdx
          texcoord0 := uvAccessorIdx
          indices := indexAccessorIdx
          material := matState.1 }
      ([p], { matState.2 with accessors := matState.2.accessors ++ [accI] })
  let meshPrimitives := primState.1
  let st2 := primState.2
  let node : GNode :=
    { mesh := st2.meshes.length
      translation := shape.translation
      rotation := shape.rotation
      scale := shape.scale }
  { st2 with
    meshes := st2.meshes ++ [meshPrimitives]
    nodes := st2.nodes ++ [node]
    pOff := st2.pOff + g.positions.length
    nOff := st2.nOff + g.normals.length
    cOff := st2.cOff + (g.colors.getD []).length
    uvOff := st2.uvOff + (g.uvs.getD []).length
    iOff := st2.iOff + g.indices.length }

structure GltfParts where
  bufferViews : List GBufferView
  accessors : List GAccessor
  materials : List GMaterial
  textures : List Nat
  images : List String
  meshes : List (List GPrimitive)
  nodes : List GNode
  totalByteLength : Nat

/-- `generateGltfParts`: totals, the combined buffer's view table (color
and uv views only when nonempty, index view last), then the per-shape
fold. -/
def generateGltfParts (shapes : List BShape) : GltfParts :=
  let posBytes := 4 * (shapes.map (fun s => s.geometry.positions.length)).sum
  let normBytes := 4 * (shapes.map (fun s => s.geometry.normals.length)).sum
  let colorBytes := 4 * (shapes.map (fun s => (s.geometry.colors.getD []).length)).sum
  let uvBytes := 4 * (shapes.map (fun s => (s.geometry.uvs.getD []).length)).sum
  let indexBytes := 2 * (shapes.map (fun s => s.geometry.indices.length)).sum
  let colorViews : List GBufferView :=
    if colorBytes > 0 then
      [{ byteOffset := posBytes + normBytes, byteLength := colorBytes, target := 34962 }]
    else []
  let uvViews : List GBufferView :=
    if uvBytes > 0 then
      [{ byteOffset := posBytes + normBytes + colorBytes, byteLength := uvBytes,
         target := 34962 }]
    else []
  let uvViewIdx : Option Nat :=
    if uvBytes > 0 then some (2 + (if colorBytes > 0 then 1 else 0)) else none
  let indexViewIdx :=
    2 + (if colorBytes > 0 then 1 else 0) + (if uvBytes > 0 then 1 else 0)
  let st0 : GBState :=
    { accessors := [], materials := [], textures := [], images := []
      materialMap := [], textureMap := [], meshes := [], nodes := []
      pOff := 0, nOff := 0, cOff := 0, uvOff := 0, iOff := 0 }
  let stF := shapes.foldl (shapeStep uvViewIdx indexViewIdx) st0
  { bufferViews :=
      [{ byteOffset := 0, byteLength := posBytes, target := 34962 },
       { byteOffset := posBytes, byteLength := normBytes, target := 34962 }]
      ++ colorViews ++ uvViews
      ++ [{ byteOffset := posBytes + normBytes + colorBytes + uvBytes,
            byteLength := indexBytes, target := 34963 }]
    accessors := stF.accessors
    materials := stF.materials
    textures := stF.textures
    images := stF.images
    meshes := stF.meshes
    nodes := stF.nodes
    totalByteLength := posBytes + normBytes + colorBytes + uvBytes + indexBytes }

/-- C8: serializing three shapes whose geometries carry no colors, uvs,
texture or sub-primitives, with three pairwise-distinct explicit flat
colors, yields exactly three materials (deduplicated by content key),
each referenced by exactly one mesh primitive, and exactly three buffer
views — positions, normals, indices — each sized to the sum of the three
shapes' corresponding attribute byte lengths. -/
theorem gltf_three_flat_materials (s1 s2 s3 : BShape) (c1 c2 c3 : List ℚ)
    (h1c : s1.geometry.colors = none) (h1u : s1.geometry.uvs = none)
    (h1t : s1.geometry.texture = none) (h1p : s1.geometry.primitives = none)
    (h1col : s1.color = some c1)
    (h2c : s2.geometry.colors = none) (h2u : s2.geometry.uvs = none)
    (h2t : s2.geometry.texture = none) (h2p : s2.geometry.primitives = none)
    (h2col : s2.color = some c2)
    (h3c : s3.geometry.colors = none) (h3u : s3.geometry.uvs = none)
    (h3t : s3.geometry.texture = none) (h3p : s3.geometry.primitives = none)
    (h3col : s3.color = some c3)
    (h12 : c1 ≠ c2) (h13 : c1 ≠ c3) (h23 : c2 ≠ c3) :
    (generateGltfParts [s1, s2, s3]).materials.length = 3
    ∧ ((generateGltfParts [s1, s2, s3]).meshes.flatten.map fun p => p.material)
        = [0, 1, 2]
    ∧ (∀ j, j < 3 →
        ((generateGltfParts [s1, s2, s3]).meshes.flatten.filter
          fun p => p.material = j).length = 1)
    ∧ (generateGltfParts [s1, s2, s3]).bufferViews.length = 3
    ∧ ((generateGltfParts [s1, s2, s3]).bufferViews.map fun v => v.byteLength)
        = [4 * (s1.geometry.positions.length + s2.geometry.positions.length
              + s3.geometry.positions.length),
           4 * (s1.geometry.normals.length + s2.geometry.normals.length
              + s3.geometry.normals.length),
           2 * (s1.geometry.indices.length + s2.geometry.indices.length
              + s3.geometry.indices.length)] := by
  refine ⟨?_, ?_, ?_, ?_, ?_⟩
  · simp [generateGltfParts, shapeStep, getMaterialIndex, getMaterialIndexNoTex,
      getMaterialIndexFlat, mkFind, h1c, h1u, h1t, h1p, h1col, h2c, h2u, h2t, h2p,
      h2col, h3c, h3u, h3t, h3p, h3col, h12, h13, h23]
  · simp [generateGltfParts, shapeStep, getMaterialIndex, getMaterialIndexNoTex,
      getMaterialIndexFlat, mkFind, h1c, h1u, h1t, h1p, h1col, h2c, h2u, h2t, h2p,
      h2col, h3c, h3u, h3t, h3p, h3col, h12, h13, h23]
  · intro j hj
    interval_cases j <;>
      simp [generateGltfParts, shapeStep, getMaterialIndex, getMaterialIndexNoTex,
        getMaterialIndexFlat, mkFind, h1c, h1u, h1t, h1p, h1col, h2c, h2u, h2t, h2p,
        h2col, h3c, h3u, h3t, h3p, h3col, h12, h13, h23, List.filter]
  · simp [generateGltfParts, shapeStep, getMaterialIndex, getMaterialIndexNoTex,
      getMaterialIndexFlat, mkFind, h1c, h1u, h1t, h1p, h1col, h2c, h2u, h2t, h2p,
      h2col, h3c, h3u, h3t, h3p, h3col, h12, h13, h23]
  · simp only [generateGltfParts, shapeStep, h1c, h1u, h2c, h2u, h3c, h3u,
      List.map_cons, List.map_nil, List.sum_cons, List.sum_nil, Option.getD_none,
      List.length_nil]
    simp [List.map]
    omega

/-- A colors/uvs/texture/sub-primitive-free triangle shape with an
explicit flat color, for exercising the builder. -/
def c8shape (c : List ℚ) : BShape :=
  { geometry :=
      { positions := [0, 0, 0, 1, 0, 0, 0, 1, 0]
        normals := [0, 0, 1, 0, 0, 1, 0, 0, 1]
        indices := [0, 1, 2]
        colors := none
        uvs := none
        texture := none
        primitives := none }
    translation := (0, 0, 0)
    rotation := none
    scale := none
    color := some c }

/-- C8 witness: the three-material theorem applied to three concrete
shapes colored red, green and blue. -/
theorem gltf_three_flat_materials_witness :
    ([(1 : ℚ), 0, 0, 1] ≠ [0, 1, 0, 1])
    ∧ (generateGltfParts [c8shape [1, 0, 0, 1], c8shape [0, 1, 0, 1],
        c8shape [0, 0, 1, 1]]).materials.length = 3 :=
  ⟨by with_unfolding_all decide,
   (gltf_three_flat_materials (c8shape [1, 0, 0, 1]) (c8shape [0, 1, 0, 1])
      (c8shape [0, 0, 1, 1]) [1, 0, 0, 1] [0, 1, 0, 1] [0, 0, 1, 1]
      rfl rfl rfl rfl rfl rfl rfl rfl rfl rfl rfl rfl rfl rfl rfl
      (by with_unfolding_all decide) (by with_unfolding_all decide)
      (by with_unfolding_all decide)).1⟩

/-! ### Index-invariant toolkit (C9) -/

theorem lookupVertex_mem {verts : List (List JNum)} {i : Int} {v : List JNum}
    (h : lookupVertex verts i = some v) : v ∈ verts := by
  unfold lookupVertex at h
  split_ifs at h with hc
  have hv := Option.some.inj h
  rw [← hv, List.getD_eq_getElem verts [] hc.2]
  exact List.getElem_mem _

theorem emitObjFace_invariant (verts : List (List JNum)) (b : Bool)
    (m : List (List Char × MtlMaterial))
    (hv : ∀ v ∈ verts, v.length = 3) (st : ObjBuildState) (f : ObjFace)
    (hpos : st.positions.length = 3 * st.currentIndex)
    (hind : ∀ i ∈ st.indices, i < st.currentIndex) :
    (emitObjFace verts b m st f).positions.length
        = 3 * (emitObjFace verts b m st f).currentIndex
    ∧ ∀ i ∈ (emitObjFace verts b m st f).indices,
        i < (emitObjFace verts b m st f).currentIndex := by
  unfold emitObjFace
  split
  · exact ⟨hpos, hind⟩
  · dsimp only
    cases h1 : lookupVertex verts ((f.indices.getD 0 none).getD 0) with
    | none => simp only [h1]; exact ⟨hpos, hind⟩
    | some v1 =>
      cases h2 : lookupVertex verts ((f.indices.getD 1 none).getD 0) with
      | none => simp only [h1, h2]; exact ⟨hpos, hind⟩
      | some v2 =>
        cases h3 : lookupVertex verts ((f.indices.getD 2 none).getD 0) with
        | none => simp only [h1, h2, h3]; exact ⟨hpos, hind⟩
        | some v3 =>
          simp only [h1, h2, h3]
          have hl1 := hv v1 (lookupVertex_mem h1)
          have hl2 := hv v2 (lookupVertex_mem h2)
          have hl3 := hv v3 (lookupVertex_mem h3)
          constructor
          · simp only [List.length_append, hl1, hl2, hl3, hpos]
            omega
          · intro i hi
            simp only [List.mem_append, List.mem_cons, List.not_mem_nil, or_false] at hi
            rcases hi with hi | hi
            · have := hind i hi
              omega
            · rcases hi with rfl | rfl | rfl <;> omega

theorem foldl_emitObjFace_invariant (verts : List (List JNum)) (b : Bool)
    (m : List (List Char × MtlMaterial)) (hv : ∀ v ∈ verts, v.length = 3)
    (faces : List ObjFace) :
    ∀ st : ObjBuildState,
    st.positions.length = 3 * st.currentIndex →
    (∀ i ∈ st.indices, i < st.currentIndex) →
    (faces.foldl (emitObjFace verts b m) st).positions.length
        = 3 * (faces.foldl (emitObjFace verts b m) st).currentIndex
    ∧ ∀ i ∈ (faces.foldl (emitObjFace verts b m) st).indices,
        i < (faces.foldl (emitObjFace verts b m) st).currentIndex := by
  induction faces with
  | nil => intro st hpos hind; exact ⟨hpos, hind⟩
  | cons f t ih =>
    intro st hpos hind
    rw [List.foldl_cons]
    obtain ⟨hpos1, hind1⟩ := emitObjFace_invariant verts b m hv st f hpos hind
    exact ih _ hpos1 hind1

theorem specIndices_lt (rps : List ResolvedPrim) :
    ∀ base V : Nat, (∀ rp ∈ rps, ∀ j ∈ rp.ind, j < rp.pos.length / 3) →
    base + vcSumR rps ≤ V → V ≤ 65536 →
    ∀ i ∈ specIndices base rps, i < V := by
  induction rps with
  | nil => intro base V _ _ _ i hi; simp [specIndices] at hi
  | cons rp t ih =>
    intro base V hall hb hV i hi
    have hvc : vcSumR (rp :: t) = rp.pos.length / 3 + vcSumR t := by
      simp [vcSumR]
    rw [show specIndices base (rp :: t)
        = rp.ind.map (fun j => (j + base) % 65536) ++
          specIndices (base + rp.pos.length / 3) t from rfl] at hi
    rcases List.mem_append.mp hi with h | h
    · obtain ⟨j, hj, rfl⟩ := List.mem_map.mp h
      have hjlt := hall rp (List.mem_cons_self ..) j hj
      have hlt : j + base < 65536 := by omega
      rw [Nat.mod_eq_of_lt hlt]
      omega
    · exact ih (base + rp.pos.length / 3) V
        (fun q hq => hall q (List.mem_cons_of_mem _ hq)) (by omega) hV i h

theorem triangulate_mod3 (poly : List (ℚ × ℚ)) :
    (triangulate poly).length % 3 = 0 := by
  unfold triangulate
  split
  · rfl
  · induction poly.length - 2 with
    | zero => rfl
    | succ n ihn =>
      rw [List.range_succ, List.map_append, List.flatten_append]
      simp only [List.length_append, List.map_cons, List.map_nil, List.flatten_cons,
        List.flatten_nil, List.append_nil, List.length_cons, List.length_nil]
      omega

theorem triangulate_lt (poly : List (ℚ × ℚ)) :
    ∀ i ∈ triangulate poly, i < poly.length := by
  unfold triangulate
  split
  · intro i hi; simp at hi
  · intro i hi
    rename_i hge
    obtain ⟨l, hl, hil⟩ := List.mem_flatten.mp hi
    obtain ⟨k, hk, rfl⟩ := List.mem_map.mp hl
    rw [List.mem_range] at hk
    simp only [List.mem_cons, List.not_mem_nil, or_false] at hil
    rcases hil with rfl | rfl | rfl <;> omega

theorem flatten_triples_length {α β : Type} (l : List α) (f g h : α → β) :
    ((l.map fun p => [f p, g p, h p]).flatten).length = 3 * l.length := by
  induction l with
  | nil => rfl
  | cons p t ih =>
    simp only [List.map_cons, List.flatten_cons, List.length_append, ih,
      List.length_cons, List.length_nil]
    omega

theorem specIndices_length_mod3 (rps : List ResolvedPrim) (base : Nat)
    (h : ∀ rp ∈ rps, 3 ∣ rp.ind.length) :
    (specIndices base rps).length % 3 = 0 := by
  rw [specIndices_length]
  have hdvd : 3 ∣ ((rps.map fun rp => rp.ind.length).sum) := by
    refine List.dvd_sum ?_
    intro x hx
    obtain ⟨rp, hrp, rfl⟩ := List.mem_map.mp hx
    exact h rp hrp
  omega

theorem parseObj_invariant_core (objText : List Char) (mtlText : Option (List Char))
    (hv : ∀ v ∈ ((splitCh '\n' objText).foldl objScanLine ⟨[], [], none⟩).tempVertices,
        v.length = 3) :
    (parseObj objText mtlText).indices.length % 3 = 0
    ∧ ∀ i ∈ (parseObj objText mtlText).indices,
        i < (parseObj objText mtlText).positions.length / 3 := by
  cases mtlText with
  | none =>
    unfold parseObj
    dsimp only
    obtain ⟨h1, h2⟩ := foldl_emitObjFace_invariant
      ((splitCh '\n' objText).foldl objScanLine ⟨[], [], none⟩).tempVertices
      (List.any ([] : List (List Char × MtlMaterial)) fun p => p.2.kd.isSome) []
      hv
      ((splitCh '\n' objText).foldl objScanLine ⟨[], [], none⟩).faces
      ⟨[], [], [], [], 0⟩ rfl (by intro i hi; simp at hi)
    refine ⟨?_, ?_⟩
    · have hm := foldl_emitObjFace_indices_mod
        ((splitCh '\n' objText).foldl objScanLine ⟨[], [], none⟩).tempVertices
        (List.any ([] : List (List Char × MtlMaterial)) fun p => p.2.kd.isSome) []
        ((splitCh '\n' objText).foldl objScanLine ⟨[], [], none⟩).faces
        ⟨[], [], [], [], 0⟩
      simpa using hm
    · intro i hi
      have h2i := h2 i hi
      omega
  | some t =>
    unfold parseObj
    dsimp only
    obtain ⟨h1, h2⟩ := foldl_emitObjFace_invariant
      ((splitCh '\n' objText).foldl objScanLine ⟨[], [], none⟩).tempVertices
      ((parseMtl t).any fun p => p.2.kd.isSome) (parseMtl t)
      hv
      ((splitCh '\n' objText).foldl objScanLine ⟨[], [], none⟩).faces
      ⟨[], [], [], [], 0⟩ rfl (by intro i hi; simp at hi)
    refine ⟨?_, ?_⟩
    · have hm := foldl_emitObjFace_indices_mod
        ((splitCh '\n' objText).foldl objScanLine ⟨[], [], none⟩).tempVertices
        ((parseMtl t).any fun p => p.2.kd.isSome) (parseMtl t)
        ((splitCh '\n' objText).foldl objScanLine ⟨[], [], none⟩).faces
        ⟨[], [], [], [], 0⟩
      simpa using hm
    · intro i hi
      have h2i := h2 i hi
      omega

/-- C9 (amended): the index-array invariant — index count a multiple of 3,
every index below the vertex count — holds for the mesh-text importer
whenever every scanned vertex record has exactly three coordinates, for
the binary-container merge whenever the kept primitives' indices are in
range, their index counts are whole triangles, and the total vertex count
fits 16 bits, and for the geographic converter's terrain geometries
unconditionally.  The claim's unconditional form is refuted by the
counterexample. -/
theorem geometry_index_invariant
    (objText : List Char) (mtlText : Option (List Char))
    (hv : ∀ v ∈ ((splitCh '\n' objText).foldl objScanLine ⟨[], [], none⟩).tempVertices,
        v.length = 3)
    (prims : List GlbPrim) (g : GlbGeometry)
    (hdiv : ∀ p ∈ keptPrims prims, 3 ∣ (primPos p).length)
    (hnorm : ∀ p ∈ keptPrims prims, (primNorm p).length = (primPos p).length)
    (hindb : ∀ p ∈ keptPrims prims, ∀ j ∈ primInd p, j < primVC p)
    (himod : ∀ p ∈ keptPrims prims, 3 ∣ (primInd p).length)
    (hvc : sumVC (keptPrims prims) ≤ 65536)
    (hok : mergePrims prims = .ok g)
    (projected : List (ℚ × ℚ)) (yLevel uvScale : ℚ) (tx : Option String) :
    ((parseObj objText mtlText).indices.length % 3 = 0
      ∧ ∀ i ∈ (parseObj objText mtlText).indices,
          i < (parseObj objText mtlText).positions.length / 3)
    ∧ (g.indices.length % 3 = 0 ∧ ∀ i ∈ g.indices, i < g.positions.length / 3)
    ∧ ((terrainGeometry projected yLevel uvScale tx).indices.length % 3 = 0
      ∧ ∀ i ∈ (terrainGeometry projected yLevel uvScale tx).indices,
          i < (terrainGeometry projected yLevel uvScale tx).positions.length / 3) := by
  refine ⟨parseObj_invariant_core objText mtlText hv, ⟨?_, ?_⟩, ⟨?_, ?_⟩⟩
  · obtain ⟨_, _, hgi, _, _, _, _, _, _⟩ := mergePrims_ok_spec prims g hdiv hnorm hok
    rw [hgi]
    apply specIndices_length_mod3
    intro rp hrp
    obtain ⟨p, hp, rfl⟩ := List.mem_map.mp hrp
    exact himod p hp
  · intro i hi
    obtain ⟨_, _, hgi, _, _, hplen, _, _, _⟩ := mergePrims_ok_spec prims g hdiv hnorm hok
    rw [hgi] at hi
    have hlt := specIndices_lt ((keptPrims prims).map toResolved) 0
      (sumVC (keptPrims prims))
      (by
        intro rp hrp j hj
        obtain ⟨p, hp, rfl⟩ := List.mem_map.mp hrp
        exact hindb p hp j hj)
      (by rw [vcSumR_map_toResolved]; omega) hvc i hi
    omega
  · exact triangulate_mod3 projected
  · intro i hi
    have hlt := triangulate_lt projected i hi
    have hplen : (terrainGeometry projected yLevel uvScale tx).positions.length
        = 3 * projected.length := flatten_triples_length projected _ _ _
    omega

/-- C9 counterexample.  Malformed vertex records (two coordinates instead
of three) make the mesh-text importer emit six position floats — two
vertices' worth — for a face's three fresh indices 0, 1, 2, so index 2
reaches `positions.length / 3 = 2`: the invariant is violated by a
produced geometry, hence the claim's unconditional form is false. -/
theorem parseObj_index_bound_counterexample :
    ¬ ∀ i ∈ (parseObj ("v 1 2\nv 3 4\nv 5 6\nf 1 2 3".data) none).indices,
        i < (parseObj ("v 1 2\nv 3 4\nv 5 6\nf 1 2 3".data) none).positions.length / 3 := by
  with_unfolding_all decide

/-- C9 witness: the amended invariant applied to a concrete well-formed
OBJ text, the empty primitive list, and a concrete terrain polygon. -/
theorem geometry_index_invariant_witness :
    (∀ v ∈ ((splitCh '\n' ("v 0 0 0\nv 1 0 0\nv 0 1 0\nf 1 2 3".data)).foldl objScanLine
        ⟨[], [], none⟩).tempVertices, v.length = 3)
    ∧ mergePrims [] = Except.ok ⟨[], [], [], [], [], none, []⟩
    ∧ (parseObj ("v 0 0 0\nv 1 0 0\nv 0 1 0\nf 1 2 3".data) none).indices.length % 3 = 0 :=
  ⟨by with_unfolding_all decide,
   by with_unfolding_all decide,
   (geometry_index_invariant ("v 0 0 0\nv 1 0 0\nv 0 1 0\nf 1 2 3".data) none
      (by with_unfolding_all decide) [] ⟨[], [], [], [], [], none, []⟩
      (by with_unfolding_all decide) (by with_unfolding_all decide)
      (by with_unfolding_all decide) (by with_unfolding_all decide)
      (by with_unfolding_all decide) (by with_unfolding_all decide)
      [(0, 0), (1, 0), (0, 1)] 0 1 none).1.1⟩
